import Mathlib

/-!
Verification development for the agrolidarwheatrust repository.

Part one embeds `src/figures/compute-crop-parameters.py` (the Ground Plane
Estimator and Canopy Metrics Calculator): points are modelled with exact
rational coordinates, and `np.percentile` is modelled by its documented
linear-interpolation definition.

Part two embeds `src/pcd2csv.py` (header parsing, record layout, point-cloud
decoding, CSV conversion).
-/

deriving instance DecidableEq for Except

namespace AgroLidar

/-- Error kinds of the pipeline, named after the spec's error taxonomy.
`layoutError` stands for the runtime exceptions (IndexError / KeyError /
duplicate-name ValueError) that `build_dtype` can raise after header
validation has succeeded. -/
inductive PcdErr where
  | headerError
  | truncatedData
  | malformedRow
  | fieldNotFound
  | planeFit
  | layoutError
  deriving DecidableEq, Repr

/-- A point with x, y, z coordinates (the `points[:, :3]` columns). -/
structure Pt3 where
  x : ℚ
  y : ℚ
  z : ℚ
  deriving DecidableEq, Repr

/-- A point with x, y, z and intensity (the four columns loaded by
`load_txt_point_cloud`). -/
structure Pt4 where
  x : ℚ
  y : ℚ
  z : ℚ
  w : ℚ
  deriving DecidableEq, Repr

/-- `np.min` over a list (`0` on the empty list, which the code never hits). -/
def listMin : List ℚ → ℚ
  | [] => 0
  | a :: l => l.foldl min a

/-- `np.max` over a list (`0` on the empty list, which the code never hits). -/
def listMax : List ℚ → ℚ
  | [] => 0
  | a :: l => l.foldl max a

/-- `np.mean` over a list. -/
def mean (l : List ℚ) : ℚ := l.sum / l.length

/-- `np.percentile(a, q)` with the default linear interpolation: sort
ascending, set `h = (q/100)·(n−1)`, and interpolate between the entries at
positions `⌊h⌋` and `⌊h⌋+1`.  All uses have `0 ≤ q ≤ 100`, so `h ≥ 0` and
`⌊h⌋ = h.num.toNat / h.den`. -/
def percentile (q : ℚ) (l : List ℚ) : ℚ :=
  let s := l.insertionSort (· ≤ ·)
  let n := s.length
  if n = 0 then 0
  else
    let h : ℚ := q / 100 * ((n : ℚ) - 1)
    let k : ℕ := h.num.toNat / h.den
    if k + 1 < n then
      s.getD k 0 + (h - (k : ℚ)) * (s.getD (k + 1) 0 - s.getD k 0)
    else s.getD (n - 1) 0

/-- `np.sum(zs >= t)`: how many entries are at or above the threshold. -/
def countAtOrAbove (t : ℚ) (zs : List ℚ) : ℕ :=
  (zs.filter (fun v => t ≤ v)).length

/-- `ground_threshold = lowest_z + 0.231 * x_range` (slope-based threshold in
`calculate_plant_height_and_plot`). -/
def ground_threshold (pts : List Pt3) : ℚ :=
  listMin (pts.map Pt3.z) + 231 / 1000 * (listMax (pts.map Pt3.x) - listMin (pts.map Pt3.x))

/-- `ground_points = points[ground_mask]` with `ground_mask = Z <= ground_threshold`. -/
def ground_candidates (pts : List Pt3) : List Pt3 :=
  pts.filter (fun p => p.z ≤ ground_threshold pts)

/-- `selected_ground_points`: the candidates whose Z is at or above the 90th
percentile of the candidate Z values. -/
def ground_refined (pts : List Pt3) : List Pt3 :=
  let gp := ground_candidates pts
  gp.filter (fun p => percentile 90 (gp.map Pt3.z) ≤ p.z)

/-- The ground-level computation of `calculate_plant_height_and_plot`:
candidate selection, 90th-percentile refinement, then `fit_plane`, whose
returned `ground_level` is `np.mean(points, axis=0)[2]`, the mean Z of the
refined subset.  `raise ValueError` — both the explicit
"Insufficient ground points" check on the candidates and the
"Not enough points to fit a plane" check inside `fit_plane` — is modelled as
`PcdErr.planeFit`. -/
def ground_level (pts : List Pt3) : Except PcdErr ℚ :=
  if (ground_candidates pts).length < 3 then .error .planeFit
  else if (ground_refined pts).length < 3 then .error .planeFit
  else .ok (mean ((ground_refined pts).map Pt3.z))

/-- The points with normalized height `Z' = Z − g` at or above `0` (the
`above_plane_mask` filter). -/
def above_plane (g : ℚ) (pts : List Pt4) : List Pt4 :=
  (pts.map (fun p => { p with z := p.z - g })).filter (fun p => 0 ≤ p.z)

/-- The analysis set: post-ground-removal points with `Z' ≥ 0.15`
(the `above_015_mask` filter). -/
def analysis_points (g : ℚ) (pts : List Pt4) : List Pt4 :=
  (above_plane g pts).filter (fun p => 15 / 100 ≤ p.z)

/-- The value returned by `calculate_plant_height_and_plot`: `0` when no point
clears the 0.15 threshold, and otherwise the 99.5th percentile of the
normalized heights of all points at or above the fitted plane. -/
def calc_plant_height (pts : List Pt4) : Except PcdErr ℚ := do
  let g ← ground_level (pts.map (fun p => ⟨p.x, p.y, p.z⟩))
  if (analysis_points g pts).length = 0 then return 0
  else return percentile (199 / 2) ((above_plane g pts).map Pt4.z)

/-! ## Embedding of `src/pcd2csv.py`

Bytes are modelled as natural numbers; a decoded cell is the raw byte slice
(binary encoding) or the raw token bytes (ascii encoding) of one expanded
column of one record — no claim depends on the numeric interpretation of a
cell, only on layout, sizes and counts, so the float/int bit decoding is left
opaque.  The per-anonymous-field random suffix drawn by `parse_header` is
modelled as an explicit parameter `anon : ℕ → String` giving the suffix used
for the anonymous field at each token position. -/

/-- The two encodings of the `DATA` header line. -/
inductive Encoding where
  | ascii
  | binary
  deriving DecidableEq, Repr

/-- The key/value pairs collected by `MetaData.parse_header` before pydantic
validation: each recognized key holds the tokens of the last line carrying
that key, `none` when no line did. -/
structure RawHeader where
  fields : Option (List String) := none
  size : Option (List Int) := none
  type : Option (List String) := none
  count : Option (List Int) := none
  points : Option Int := none
  width : Option Int := none
  height : Option Int := none
  version : Option String := none
  viewpoint : Option (List String) := none
  data : Option String := none
  deriving DecidableEq, Repr

/-- The validated `MetaData` pydantic model.  `size`/`count` entries are kept
as naturals (pydantic `PositiveInt`), `points`/`width`/`height` as naturals
(`NonNegativeInt`).  Viewpoint tokens are kept opaque: no claim depends on
their float values, only on the 7-element arity that pydantic enforces. -/
structure MetaData where
  fields : List String
  size : List ℕ
  type : List String
  count : List ℕ
  points : ℕ
  width : ℕ
  height : ℕ
  version : String
  viewpoint : List String
  data : Encoding
  deriving DecidableEq, Repr

/-- The supported `(TYPE, SIZE)` combinations, the key set of
`PCD_TYPE_TO_NUMPY_TYPE` (and `PCD_TYPE_TO_STRUCT_FORMAT`). -/
def PCD_TYPE_SIZES : List (String × ℕ) :=
  [("F", 4), ("F", 8), ("U", 1), ("U", 2), ("U", 4), ("U", 8),
   ("I", 1), ("I", 2), ("I", 4), ("I", 8)]

/-- The fixed prefix `"#$%&~~"` that `parse_header` puts before the random
suffix of an anonymous `_` field. -/
def anonPre : String := "#$%&~~"

/-- A whitespace character (space, tab, LF, CR). -/
def isWsChar (c : Char) : Bool := c = ' ' ∨ c = '\t' ∨ c = '\n' ∨ c = '\r'

/-- Whitespace tokenization of a character list (the effect of `str.split()`),
accumulating the current token in reverse. -/
def splitToksAux : List Char → List Char → List String
  | [], acc => if acc = [] then [] else [String.mk acc.reverse]
  | c :: cs, acc =>
    if isWsChar c then
      if acc = [] then splitToksAux cs []
      else String.mk acc.reverse :: splitToksAux cs []
    else splitToksAux cs (c :: acc)

/-- Whitespace tokenization of a line (the effect of `str.split()` on the
value part of `HEADER_PATTERN`'s match). -/
def lineToks (s : String) : List String := splitToksAux s.data []

/-- `s.startswith(pre)` at the character level. -/
def listStarts : List Char → List Char → Bool
  | [], _ => true
  | _ :: _, [] => false
  | p :: ps, c :: cs => p = c && listStarts ps cs

/-- `s.startswith(pre)` for strings. -/
def strStarts (s pre : String) : Bool := listStarts pre.data s.data

/-- `str.strip()`: drop leading and trailing whitespace. -/
def strTrim (s : String) : String :=
  String.mk (((s.data.dropWhile isWsChar).reverse.dropWhile isWsChar).reverse)

/-- `str.lower()` for one ASCII character. -/
def charLower (c : Char) : Char :=
  if 65 ≤ c.toNat ∧ c.toNat ≤ 90 then Char.ofNat (c.toNat + 32) else c

/-- `str.lower()`. -/
def strLower (s : String) : String := String.mk (s.data.map charLower)

/-- The numeric value of an ASCII digit. -/
def digitVal (c : Char) : Option ℕ :=
  if 48 ≤ c.toNat ∧ c.toNat ≤ 57 then some (c.toNat - 48) else none

/-- Decimal value of a digit list (`none` on a non-digit). -/
def natOfDigits : List Char → ℕ → Option ℕ
  | [], acc => some acc
  | c :: cs, acc =>
    match digitVal c with
    | some d => natOfDigits cs (acc * 10 + d)
    | none => none

/-- `int(token)` for an optionally `-`-signed decimal token. -/
def parseIntStr (s : String) : Option Int :=
  match s.data with
  | [] => none
  | '-' :: cs => if cs = [] then none else (natOfDigits cs 0).map (fun n => -(n : Int))
  | cs => (natOfDigits cs 0).map (fun n => (n : Int))

/-- `int(token)`: Python raises `ValueError` on a non-integer token, which
aborts the file; modelled as a header failure. -/
def parseIntTok (s : String) : Except PcdErr Int :=
  match parseIntStr s with
  | some n => .ok n
  | none => .error .headerError

/-- The anonymization of the `fields` tokens: token `"_"` at position `i`
becomes `anonPre` followed by the suffix `anon i` (in the source, six
characters drawn from `string.ascii_letters + string.digits`). -/
def anonymize (anon : ℕ → String) : ℕ → List String → List String
  | _, [] => []
  | i, s :: rest =>
    (if s = "_" then anonPre ++ anon i else s) :: anonymize anon (i + 1) rest

/-- The per-key update of the `parse_header` loop, dispatching on the
lowercased key (an unrecognized key leaves the collected header unchanged). -/
def applyKey (anon : ℕ → String) (r : RawHeader) (k : String) (vals : List String) :
    Except PcdErr RawHeader :=
  if k = "version" then .ok { r with version := some (vals.getD 0 "") }
  else if k = "data" then .ok { r with data := some (vals.getD 0 "") }
  else if k = "width" then do
    let n ← parseIntTok (vals.getD 0 ""); .ok { r with width := some n }
  else if k = "height" then do
    let n ← parseIntTok (vals.getD 0 ""); .ok { r with height := some n }
  else if k = "points" then do
    let n ← parseIntTok (vals.getD 0 ""); .ok { r with points := some n }
  else if k = "fields" then .ok { r with fields := some (anonymize anon 0 vals) }
  else if k = "type" then .ok { r with type := some vals }
  else if k = "size" then do
    let ns ← vals.mapM parseIntTok; .ok { r with size := some ns }
  else if k = "count" then do
    let ns ← vals.mapM parseIntTok; .ok { r with count := some ns }
  else if k = "viewpoint" then .ok { r with viewpoint := some vals }
  else .ok r

/-- One iteration of the `parse_header` loop: skip comments, short and
unmatched lines, otherwise dispatch on the lowercased key and update the
collected header. -/
def parse_line (anon : ℕ → String) (r : RawHeader) (line : String) :
    Except PcdErr RawHeader :=
  if strStarts line "#" ∨ line.length < 2 then .ok r
  else
    match lineToks line with
    | [] => .ok r
    | [_] => .ok r
    | key :: vals => applyKey anon r (strLower key) vals

/-- `MetaData.parse_header` before the final `MetaData(**_header)` call:
collect the recognized key/value lines. -/
def parse_header (anon : ℕ → String) (lines : List String) : Except PcdErr RawHeader :=
  lines.foldlM (parse_line anon) {}

/-- The default viewpoint `(0, 0, 0, 1, 0, 0, 0)`. -/
def defaultViewpoint : List String := ["0.0", "0.0", "0.0", "1.0", "0.0", "0.0", "0.0"]

/-- Coercion of the `data` token into the `Encoding` enum (pydantic rejects
anything but the two member values). -/
def parse_encoding (s : String) : Except PcdErr Encoding :=
  if s = "ascii" then .ok .ascii
  else if s = "binary" then .ok .binary
  else .error .headerError

/-- The encoding of a collected `data` token, defaulting to binary. -/
def encodeOf (o : Option String) : Except PcdErr Encoding :=
  match o with
  | none => .ok Encoding.binary
  | some s => parse_encoding s

/-- The pydantic validation performed by `MetaData(**_header)`: required keys
must be present, `size`/`count` entries positive, `type` entries in
`{F, U, I}`, `points`/`width`/`height` non-negative, `viewpoint` of arity 7,
`data` a valid encoding; defaults fill `height`, `version`, `viewpoint` and
`data`.  The model does NOT compare the lengths of the four per-field tuples,
and does not consult the supported `(TYPE, SIZE)` set. -/
def validate (r : RawHeader) : Except PcdErr MetaData := do
  let some fs := r.fields | .error .headerError
  let some szs := r.size | .error .headerError
  let some tys := r.type | .error .headerError
  let some cts := r.count | .error .headerError
  let some pts := r.points | .error .headerError
  let some wd := r.width | .error .headerError
  if szs.all (fun v => 0 < v) ∧ cts.all (fun v => 0 < v) ∧
     tys.all (fun t => t = "F" ∨ t = "U" ∨ t = "I") ∧
     0 ≤ pts ∧ 0 ≤ wd ∧ 0 ≤ r.height.getD 1 ∧
     (r.viewpoint.getD defaultViewpoint).length = 7 then
    let enc ← encodeOf r.data
    .ok { fields := fs, size := szs.map Int.toNat, type := tys,
          count := cts.map Int.toNat, points := pts.toNat, width := wd.toNat,
          height := (r.height.getD 1).toNat, version := r.version.getD "0.7",
          viewpoint := r.viewpoint.getD defaultViewpoint, data := enc }
  else .error .headerError

/-- The acceptance conditions of the pydantic model, spelled out: all six
required keys present, sizes and counts positive, type codes in `{F, U, I}`,
`points`/`width`/`height` non-negative, viewpoint of arity 7, and a
recognized `data` value. -/
def headerConditions (r : RawHeader) : Prop :=
  r.fields.isSome ∧ r.size.isSome ∧ r.type.isSome ∧ r.count.isSome ∧
  r.points.isSome ∧ r.width.isSome ∧
  (∀ v ∈ r.size.getD [], 0 < v) ∧ (∀ v ∈ r.count.getD [], 0 < v) ∧
  (∀ t ∈ r.type.getD [], t = "F" ∨ t = "U" ∨ t = "I") ∧
  0 ≤ r.points.getD 0 ∧ 0 ≤ r.width.getD 0 ∧ 0 ≤ r.height.getD 1 ∧
  (r.viewpoint.getD defaultViewpoint).length = 7 ∧
  (r.data = none ∨ r.data = some "ascii" ∨ r.data = some "binary")

/-- Left-pad a numeral to four digits (the `{i:04d}` suffix format). -/
def pad4 (n : ℕ) : String :=
  let s := toString n
  String.mk (List.replicate (4 - s.length) '0') ++ s

/-- The loop body of `build_dtype` over the remaining fields, `i` being the
running index: `self.type[i]` / `self.size[i]` out of range is an IndexError,
an unsupported pair a KeyError on the type map, `self.count[i]` out of range
an IndexError — all after-validation runtime errors, `layoutError` here.  A
field of count 1 contributes one column, a field of count n contributes n
suffixed columns; each column records its name and byte width. -/
def build_dtype_aux (m : MetaData) : List String → ℕ → Except PcdErr (List (String × ℕ))
  | [], _ => .ok []
  | f :: rest, i => do
    let some ty := m.type[i]? | .error .layoutError
    let some sz := m.size[i]? | .error .layoutError
    if (ty, sz) ∈ PCD_TYPE_SIZES then
      let some ct := m.count[i]? | .error .layoutError
      let cols ← build_dtype_aux m rest (i + 1)
      if ct = 1 then .ok ((f, sz) :: cols)
      else .ok (((List.range ct).map (fun j => (f ++ "__" ++ pad4 j, sz))) ++ cols)
    else .error .layoutError

/-- `MetaData.build_dtype`: expand the header fields into scalar columns;
`np.dtype` additionally rejects duplicate column names. -/
def build_dtype (m : MetaData) : Except PcdErr (List (String × ℕ)) := do
  let cols ← build_dtype_aux m m.fields 0
  if (cols.map Prod.fst).Nodup then .ok cols else .error .layoutError

/-- `dtype.itemsize` of a packed record dtype: the sum of the column widths. -/
def strideOf (cols : List (String × ℕ)) : ℕ := (cols.map Prod.snd).sum

/-- Slice one record's bytes into one cell per column, each of its declared
width. -/
def splitCells : List ℕ → List (String × ℕ) → List (List ℕ)
  | _, [] => []
  | bytes, c :: rest => bytes.take c.2 :: splitCells (bytes.drop c.2) rest

/-- Reinterpret a buffer as `n` consecutive records of stride `s`
(`np.frombuffer`). -/
def chunkRecords (cols : List (String × ℕ)) (s : ℕ) : ℕ → List ℕ → List (List (List ℕ))
  | 0, _ => []
  | n + 1, bytes => splitCells bytes cols :: chunkRecords cols s n (bytes.drop s)

/-- A byte is whitespace (space, tab, LF, CR). -/
def isWsByte (b : ℕ) : Bool := b = 32 ∨ b = 9 ∨ b = 10 ∨ b = 13

/-- Whitespace tokenization of the ascii body. -/
def tokenizeBytes (body : List ℕ) : List (List ℕ) :=
  (body.splitOnP isWsByte).filter (fun t => t ≠ [])

/-- Group the ascii tokens into `n` rows of `nc` tokens each. -/
def chunkToks (nc : ℕ) : ℕ → List (List ℕ) → List (List (List ℕ))
  | 0, _ => []
  | n + 1, ts => ts.take nc :: chunkToks nc n (ts.drop nc)

/-- `_parse_pc_data`: an empty cloud reads nothing; a binary body is
`fp.read(points * itemsize)` — `fp.read` returns at most that many bytes —
then `np.frombuffer`, which raises (`truncatedData`) exactly when the number
of bytes read is not a multiple of the stride; an ascii body is `np.loadtxt`,
which reads all whitespace-separated tokens in rows of one token per column
and raises (`malformedRow`) on a shape mismatch. -/
def parse_pc_data (m : MetaData) (cols : List (String × ℕ)) (body : List ℕ) :
    Except PcdErr (List (List (List ℕ))) :=
  if m.points = 0 then .ok []
  else match m.data with
    | .binary =>
      let s := strideOf cols
      if s = 0 then .error .layoutError
      else
        let buffer := body.take (m.points * s)
        if buffer.length % s = 0 then .ok (chunkRecords cols s (buffer.length / s) buffer)
        else .error .truncatedData
    | .ascii =>
      let toks := tokenizeBytes body
      let nc := cols.length
      if nc = 0 then .error .malformedRow
      else if toks.length % nc = 0 then .ok (chunkToks nc (toks.length / nc) toks)
      else .error .malformedRow

/-- A decoded point cloud: the validated metadata, the dtype column names and
the decoded records (one cell per expanded column per record). -/
structure PointCloud where
  metadata : MetaData
  names : List String
  pc_data : List (List (List ℕ))
  deriving DecidableEq, Repr

/-- The `PointCloud.fields` property: expansion of the metadata's field names
by their counts (via `zip(self.metadata.fields, self.metadata.count)`). -/
def expand_fields (m : MetaData) : List String :=
  (List.zip m.fields m.count).flatMap (fun fc =>
    if fc.2 = 1 then [fc.1]
    else (List.range fc.2).map (fun c => fc.1 ++ "__" ++ pad4 c))

/-- `self.pc_data[field]`: look the name up among the dtype columns (an
unknown name is a KeyError, the spec's `FieldNotFoundError`) and extract that
cell from every record. -/
def getColumn (pc : PointCloud) (f : String) : Except PcdErr (List (List ℕ)) :=
  match pc.names.findIdx? (fun n => n = f) with
  | none => .error .fieldNotFound
  | some j => .ok (pc.pc_data.map (fun r => r.getD j []))

/-- `PointCloud.numpy(fields)`: empty request or empty cloud short-circuit to
an empty matrix (note the empty-cloud branch returns BEFORE any name is
looked up); otherwise stack the requested columns and transpose, giving one
row per record with the cells in requested column order. -/
def PointCloud.numpy (pc : PointCloud) (req : List String) :
    Except PcdErr (List (List (List ℕ))) :=
  if req.length = 0 then .ok []
  else if pc.metadata.points = 0 then .ok []
  else do
    let cols ← req.mapM (getColumn pc)
    .ok ((List.range pc.pc_data.length).map (fun r => cols.map (fun c => c.getD r [])))

/-- The `from_fileobj` header loop: decode lines, skip comments and blanks,
collect until a line starts with `DATA` or ten lines have been collected
(`n` counts the lines collected so far; the `DATA` line, or the tenth line,
is still appended before the loop breaks). -/
def collectAux : List String → ℕ → List String
  | [], _ => []
  | l :: rest, n =>
    let t := strTrim l
    if strStarts t "#" ∨ t.data = [] then collectAux rest n
    else if strStarts t "DATA" ∨ 9 ≤ n then [t]
    else t :: collectAux rest (n + 1)

/-- The header lines consumed by `PointCloud.from_fileobj`. -/
def collectHeaderLines (lines : List String) : List String := collectAux lines 0

/-- `PointCloud.from_fileobj`: collect the header lines, parse and validate
them, build the record layout and decode the body. -/
def decode_pcd (anon : ℕ → String) (lines : List String) (body : List ℕ) :
    Except PcdErr PointCloud := do
  let raw ← parse_header anon (collectHeaderLines lines)
  let m ← validate raw
  let cols ← build_dtype m
  let rows ← parse_pc_data m cols body
  .ok ⟨m, cols.map Prod.fst, rows⟩

/-- The CSV output of `pcd_to_csv`: the header row written by
`writer.writerow(selected_fields)` and one row of raw cells per point.  The
`csv.writer` text formatting of each cell is a fixed deterministic function
of the cell, so byte-identical file output is equivalent to equality of this
structure. -/
structure CsvOut where
  headerRow : List String
  rows : List (List (List ℕ))
  deriving DecidableEq, Repr

/-- The hard-coded list `selected_fields = ["x", "y", "z", "intensity"]`. -/
def selected_fields : List String := ["x", "y", "z", "intensity"]

/-- `fields.index(f)` (Python guarantees presence via the `if field in fields`
filter before calling `.index`). -/
def firstIdx (f : String) (l : List String) : ℕ := l.findIdx (fun n => n = f)

/-- `pcd_to_csv` after decoding: request all expanded columns, keep only
those of `x, y, z, intensity` that exist, and emit the header row plus the
selected cells of every record. -/
def pcd_to_csv (pc : PointCloud) : Except PcdErr CsvOut := do
  let fields := expand_fields pc.metadata
  let mat ← pc.numpy fields
  let sel := selected_fields.filter (fun f => fields.contains f)
  let idxs := sel.map (fun f => firstIdx f fields)
  .ok ⟨selected_fields, mat.map (fun row => idxs.map (fun j => row.getD j []))⟩

/-- The whole conversion of one container (header lines plus body bytes) to
CSV, parameterized by the anonymous-field suffix choice. -/
def convert (anon : ℕ → String) (lines : List String) (body : List ℕ) :
    Except PcdErr CsvOut := do
  let pc ← decode_pcd anon lines body
  pcd_to_csv pc

/-! Relations used to compare two pipeline runs that differ only in the
random suffixes assigned to anonymous `_` fields. -/

/-- A name produced by anonymization: its first character is `'#'` (the first
character of `anonPre`), which no declared field name or selected column name
has. -/
def anonymousName (a : String) : Prop := ∃ l, a.data = '#' :: l

/-- Two names agree up to anonymization: equal, or both anonymous. -/
def NRel (a b : String) : Prop := a = b ∨ (anonymousName a ∧ anonymousName b)

/-- Lift a relation to `Option`. -/
def optRel (R : α → β → Prop) : Option α → Option β → Prop
  | none, none => True
  | some a, some b => R a b
  | _, _ => False

/-- Two collected headers agree up to anonymization of field names. -/
def RawRel (r s : RawHeader) : Prop :=
  optRel (List.Forall₂ NRel) r.fields s.fields ∧ r.size = s.size ∧ r.type = s.type ∧
  r.count = s.count ∧ r.points = s.points ∧ r.width = s.width ∧ r.height = s.height ∧
  r.version = s.version ∧ r.viewpoint = s.viewpoint ∧ r.data = s.data

/-- Two validated headers agree up to anonymization of field names. -/
def MetaRel (m n : MetaData) : Prop :=
  List.Forall₂ NRel m.fields n.fields ∧ m.size = n.size ∧ m.type = n.type ∧
  m.count = n.count ∧ m.points = n.points ∧ m.width = n.width ∧ m.height = n.height ∧
  m.version = n.version ∧ m.viewpoint = n.viewpoint ∧ m.data = n.data

/-- Two column layouts agree up to anonymization: names related, widths
equal. -/
def ColsRel (c d : List (String × ℕ)) : Prop :=
  List.Forall₂ (fun x y => NRel x.1 y.1 ∧ x.2 = y.2) c d

/-- Lift a relation to `Except` results: same error, or related payloads. -/
def excRel (R : α → β → Prop) : Except PcdErr α → Except PcdErr β → Prop
  | .ok a, .ok b => R a b
  | .error e, .error f => e = f
  | _, _ => False

/-- Helper: the normalized heights of the points kept by `above_plane` are
exactly the nonnegative values among all normalized heights. -/
theorem above_plane_map_z (g : ℚ) (pts : List Pt4) :
    (above_plane g pts).map Pt4.z = (pts.map (fun p => p.z - g)).filter (fun v => 0 ≤ v) := by
  induction pts with
  | nil => rfl
  | cons p l ih =>
    simp only [above_plane, List.map_cons, List.filter_cons] at *
    by_cases h : (0 : ℚ) ≤ p.z - g
    · simp [h, ih]
    · simp [h, ih]

/-- `chunkRecords` produces exactly the requested number of records. -/
theorem chunkRecords_length (cols : List (String × ℕ)) (s : ℕ) :
    ∀ (n : ℕ) (bytes : List ℕ), (chunkRecords cols s n bytes).length = n := by
  intro n
  induction n with
  | zero => intro bytes; rfl
  | succ k ih => intro bytes; simp [chunkRecords, ih]

/-- The stride of concatenated column lists adds up. -/
theorem strideOf_append (a b : List (String × ℕ)) :
    strideOf (a ++ b) = strideOf a + strideOf b := by
  simp [strideOf]

/-- The stride of the columns built from the field sublist starting at index
`i` is the sum of `size[i+j] * count[i+j]` over that sublist. -/
theorem build_dtype_aux_stride (m : MetaData) :
    ∀ (fs : List String) (i : ℕ) (cols : List (String × ℕ)),
      build_dtype_aux m fs i = .ok cols →
      strideOf cols =
        ((List.range fs.length).map
          (fun j => m.size.getD (i + j) 0 * m.count.getD (i + j) 0)).sum := by
  intro fs
  induction fs with
  | nil =>
    intro i cols h
    simp only [build_dtype_aux] at h
    cases h
    simp [strideOf]
  | cons f rest ih =>
    intro i cols h
    simp only [build_dtype_aux] at h
    cases hty : m.type[i]? with
    | none => simp [hty] at h
    | some ty =>
    simp only [hty] at h
    cases hsz : m.size[i]? with
    | none => simp [hsz] at h
    | some sz =>
    simp only [hsz] at h
    by_cases hmem : (ty, sz) ∈ PCD_TYPE_SIZES
    · rw [if_pos hmem] at h
      cases hct : m.count[i]? with
      | none => simp [hct] at h
      | some ct =>
      simp only [hct] at h
      cases hrec : build_dtype_aux m rest (i + 1) with
      | error e =>
        simp only [hrec] at h
        replace h : (Except.error e : Except PcdErr (List (String × ℕ))) = Except.ok cols := h
        exact absurd h (by simp)
      | ok cols2 =>
      simp only [hrec] at h
      replace h : (if ct = 1 then Except.ok ((f, sz) :: cols2)
          else Except.ok (((List.range ct).map (fun j => (f ++ "__" ++ pad4 j, sz))) ++ cols2))
          = Except.ok cols := h
      have hsz0 : m.size.getD i 0 = sz := by
        simp [List.getD_eq_getElem?_getD, hsz]
      have hct0 : m.count.getD i 0 = ct := by
        simp [List.getD_eq_getElem?_getD, hct]
      have hsum : ((List.range (rest.length + 1)).map
            (fun j => m.size.getD (i + j) 0 * m.count.getD (i + j) 0)).sum
          = m.size.getD i 0 * m.count.getD i 0 +
            ((List.range rest.length).map
              (fun j => m.size.getD (i + 1 + j) 0 * m.count.getD (i + 1 + j) 0)).sum := by
        rw [List.range_succ_eq_map]
        simp only [List.map_cons, List.map_map, List.sum_cons, Nat.add_zero]
        congr 2
        apply List.map_congr_left
        intro j _
        have : i + (j + 1) = i + 1 + j := by omega
        simp [Function.comp, this]
      have hrest := ih (i + 1) cols2 hrec
      by_cases h1 : ct = 1
      · rw [if_pos h1] at h
        cases h
        subst h1
        simp only [List.length_cons, hsum, hsz0, hct0, Nat.mul_one]
        have : strideOf ((f, sz) :: cols2) = sz + strideOf cols2 := by
          simp [strideOf]
        rw [this, hrest]
      · rw [if_neg h1] at h
        cases h
        rw [List.length_cons, hsum, hsz0, hct0, strideOf_append, hrest]
        have hstr : strideOf ((List.range ct).map (fun j => (f ++ "__" ++ pad4 j, sz))) = ct * sz := by
          simp only [strideOf, List.map_map]
          rw [show ((fun c : String × ℕ => c.2) ∘ (fun j : ℕ => (f ++ "__" ++ pad4 j, sz)))
              = (fun _ => sz) from rfl]
          rw [List.map_const', List.length_range, List.sum_replicate, smul_eq_mul]
        rw [hstr, Nat.mul_comm sz ct]
    · rw [if_neg hmem] at h
      exact absurd h (by simp)

/-- Every failure of `build_dtype_aux` is a layout error. -/
theorem build_dtype_aux_err (m : MetaData) :
    ∀ (fs : List String) (i : ℕ) (e : PcdErr),
      build_dtype_aux m fs i = .error e → e = .layoutError := by
  intro fs
  induction fs with
  | nil => intro i e h; simp [build_dtype_aux] at h
  | cons f rest ih =>
    intro i e h
    simp only [build_dtype_aux] at h
    cases hty : m.type[i]? with
    | none => simp only [hty] at h; cases h; rfl
    | some ty =>
    simp only [hty] at h
    cases hsz : m.size[i]? with
    | none => simp only [hsz] at h; cases h; rfl
    | some sz =>
    simp only [hsz] at h
    by_cases hmem : (ty, sz) ∈ PCD_TYPE_SIZES
    · rw [if_pos hmem] at h
      cases hct : m.count[i]? with
      | none => simp only [hct] at h; cases h; rfl
      | some ct =>
      simp only [hct] at h
      cases hrec : build_dtype_aux m rest (i + 1) with
      | error e2 =>
        simp only [hrec] at h
        replace h : (Except.error e2 : Except PcdErr (List (String × ℕ))) = Except.error e := h
        simp only [Except.error.injEq] at h
        subst h
        exact ih (i + 1) e2 hrec
      | ok cols2 =>
        simp only [hrec] at h
        replace h : (if ct = 1 then Except.ok ((f, sz) :: cols2)
            else Except.ok (((List.range ct).map (fun j => (f ++ "__" ++ pad4 j, sz))) ++ cols2))
            = Except.error e := h
        by_cases h1 : ct = 1 <;> simp [h1] at h
    · rw [if_neg hmem] at h
      cases h
      rfl

/-- A successful `build_dtype_aux` run found `type`, `size` and `count`
entries for every processed index. -/
theorem build_dtype_aux_bounds (m : MetaData) :
    ∀ (fs : List String) (i : ℕ) (cols : List (String × ℕ)),
      build_dtype_aux m fs i = .ok cols →
      ∀ j < fs.length, i + j < m.type.length ∧ i + j < m.size.length ∧
        i + j < m.count.length := by
  intro fs
  induction fs with
  | nil => intro i cols _ j hj; simp at hj
  | cons f rest ih =>
    intro i cols h j hj
    simp only [build_dtype_aux] at h
    cases hty : m.type[i]? with
    | none => simp [hty] at h
    | some ty =>
    simp only [hty] at h
    cases hsz : m.size[i]? with
    | none => simp [hsz] at h
    | some sz =>
    simp only [hsz] at h
    by_cases hmem : (ty, sz) ∈ PCD_TYPE_SIZES
    · rw [if_pos hmem] at h
      cases hct : m.count[i]? with
      | none => simp [hct] at h
      | some ct =>
      simp only [hct] at h
      cases hrec : build_dtype_aux m rest (i + 1) with
      | error e =>
        simp only [hrec] at h
        replace h : (Except.error e : Except PcdErr (List (String × ℕ))) = Except.ok cols := h
        exact absurd h (by simp)
      | ok cols2 =>
      simp only [hrec] at h
      cases j with
      | zero =>
        refine ⟨?_, ?_, ?_⟩
        · exact Nat.add_zero i ▸ (List.getElem?_eq_some_iff.mp hty).1
        · exact Nat.add_zero i ▸ (List.getElem?_eq_some_iff.mp hsz).1
        · exact Nat.add_zero i ▸ (List.getElem?_eq_some_iff.mp hct).1
      | succ k =>
        have hk : k < rest.length := by simpa using hj
        have := ih (i + 1) cols2 hrec k hk
        have harith : i + (k + 1) = i + 1 + k := by omega
        rw [harith]
        exact this
    · rw [if_neg hmem] at h
      exact absurd h (by simp)

/-- A successful `build_dtype` comes from a successful expansion pass. -/
theorem build_dtype_ok (m : MetaData) (cols : List (String × ℕ))
    (h : build_dtype m = .ok cols) : build_dtype_aux m m.fields 0 = .ok cols := by
  unfold build_dtype at h
  cases haux : build_dtype_aux m m.fields 0 with
  | error e =>
    simp only [haux] at h
    replace h : (Except.error e : Except PcdErr (List (String × ℕ))) = Except.ok cols := h
    exact absurd h (by simp)
  | ok cols0 =>
    simp only [haux] at h
    replace h : (if (cols0.map Prod.fst).Nodup then Except.ok cols0
        else Except.error PcdErr.layoutError) = Except.ok cols := h
    by_cases hnd : (cols0.map Prod.fst).Nodup
    · rw [if_pos hnd] at h; cases h; rfl
    · rw [if_neg hnd] at h; exact absurd h (by simp)

end AgroLidar

namespace AgroLidar

unseal Rat.add Rat.mul Rat.inv Rat.sub in
/-- C1: on a cloud whose candidate ground set has at least 3 points, the
estimator does NOT always return the mean Z of the refined subset: when the
90th-percentile refinement leaves fewer than 3 points, `fit_plane` raises.
Concretely, the 3-point cloud below has 3 candidate ground points yet the
estimator fails with a plane-fit error. -/
theorem C1_candidates_counterexample :
    (ground_candidates [⟨0,0,0⟩, ⟨10,0,1⟩, ⟨0,1,2⟩]).length = 3 ∧
    ground_level [⟨0,0,0⟩, ⟨10,0,1⟩, ⟨0,1,2⟩] = .error .planeFit := by
  decide

/-- C1 (amended): the estimator fails with a plane-fit error when the
candidate ground set has fewer than 3 points; when both the candidate set and
the refined subset (candidates with Z at or above the candidates' 90th Z
percentile) have at least 3 points, it returns the mean Z of the refined
subset; and a plane-fit failure propagates, so no metrics are produced. -/
theorem C1_ground_level_amended (pts : List Pt3) :
    ((ground_candidates pts).length < 3 → ground_level pts = .error .planeFit) ∧
    (3 ≤ (ground_candidates pts).length → 3 ≤ (ground_refined pts).length →
      ground_level pts = .ok (mean ((ground_refined pts).map Pt3.z))) ∧
    (∀ (qts : List Pt4) (e : PcdErr),
      ground_level (qts.map (fun p => ⟨p.x, p.y, p.z⟩)) = .error e →
      calc_plant_height qts = .error e) := by
  refine ⟨fun h => ?_, fun h1 h2 => ?_, fun qts e hg => ?_⟩
  · simp [ground_level, h]
  · simp [ground_level, Nat.not_lt.mpr h1, Nat.not_lt.mpr h2]
  · unfold calc_plant_height
    rw [hg]
    rfl

unseal Rat.add Rat.mul Rat.inv Rat.sub in
/-- C1 witness: concrete instantiations of the amended theorem.  The flat
3-point cloud has 3 candidates and 3 refined points, so the estimator returns
their mean Z (= 0); the 2-point cloud has fewer than 3 candidates, so the
estimator fails and the plant-height pipeline fails with it. -/
theorem C1_ground_level_amended_witness :
    ground_level [⟨0,0,0⟩, ⟨1,0,0⟩, ⟨0,1,0⟩] = .ok 0 ∧
    ground_level [⟨0,0,0⟩, ⟨1,0,0⟩] = .error .planeFit ∧
    calc_plant_height [⟨0,0,0,7⟩, ⟨1,0,0,8⟩] = .error .planeFit := by
  refine ⟨?_, ?_, ?_⟩
  · have h := (C1_ground_level_amended [⟨0,0,0⟩, ⟨1,0,0⟩, ⟨0,1,0⟩]).2.1
      (by decide) (by decide)
    rw [h]; decide
  · exact (C1_ground_level_amended [⟨0,0,0⟩, ⟨1,0,0⟩]).1 (by decide)
  · exact (C1_ground_level_amended []).2.2 [⟨0,0,0,7⟩, ⟨1,0,0,8⟩] .planeFit
      ((C1_ground_level_amended [⟨0,0,0⟩, ⟨1,0,0⟩]).1 (by decide))

unseal Rat.add Rat.mul Rat.inv Rat.sub in
/-- C3 counterexample: the 50th percentile of the 10-point analysis set
`[0.15, 0.2, ..., 1.0]` under the linear-interpolation definition is 0.55,
not 0.575 as the claim states. -/
theorem C3_percentile_counterexample :
    percentile 50 [15/100, 2/10, 3/10, 4/10, 5/10, 6/10, 7/10, 8/10, 9/10, 1]
      ≠ 575/1000 := by
  decide

unseal Rat.add Rat.mul Rat.inv Rat.sub in
/-- C3 (amended): for the analysis set `[0.15, 0.2, 0.3, 0.4, 0.5, 0.6, 0.7,
0.8, 0.9, 1.0]`, the linear-interpolation 50th percentile equals 0.55, and the
cumulative count of analysis points at or above it equals 5. -/
theorem C3_percentile_amended :
    percentile 50 [15/100, 2/10, 3/10, 4/10, 5/10, 6/10, 7/10, 8/10, 9/10, 1]
      = 55/100 ∧
    countAtOrAbove
      (percentile 50 [15/100, 2/10, 3/10, 4/10, 5/10, 6/10, 7/10, 8/10, 9/10, 1])
      [15/100, 2/10, 3/10, 4/10, 5/10, 6/10, 7/10, 8/10, 9/10, 1] = 5 := by
  decide

/-- C4: whenever the ground fit succeeds and the analysis set is nonempty, the
reported plant-height statistic is the 99.5th percentile of the normalized
heights of ALL post-ground-removal points (every normalized height ≥ 0,
including the low points below 0.15 that the analysis set excludes). -/
theorem C4_plant_height_full_set (pts : List Pt4) (g : ℚ)
    (hg : ground_level (pts.map (fun p => ⟨p.x, p.y, p.z⟩)) = .ok g)
    (hne : (analysis_points g pts).length ≠ 0) :
    calc_plant_height pts =
      .ok (percentile (199/2) ((pts.map (fun p => p.z - g)).filter (fun v => 0 ≤ v))) := by
  rw [← above_plane_map_z]
  unfold calc_plant_height
  rw [hg]
  show (if (analysis_points g pts).length = 0 then pure 0
        else pure (percentile (199 / 2) ((above_plane g pts).map Pt4.z)) : Except PcdErr ℚ) = _
  rw [if_neg hne]
  rfl

unseal Rat.add Rat.mul Rat.inv Rat.sub in
/-- C4 witness: a cloud with three ground points, one low point (normalized
height 0.1, excluded from the analysis set) and one high point.  The reported
height 0.982 interpolates between the low point and the high point, so the
low point participates in the statistic. -/
theorem C4_plant_height_full_set_witness :
    calc_plant_height
      [⟨0,0,0,1⟩, ⟨1/10,0,0,1⟩, ⟨0,1/10,0,1⟩, ⟨0,0,1/10,7⟩, ⟨0,0,1,5⟩]
      = .ok (491/500) := by
  have h := C4_plant_height_full_set
    [⟨0,0,0,1⟩, ⟨1/10,0,0,1⟩, ⟨0,1/10,0,1⟩, ⟨0,0,1/10,7⟩, ⟨0,0,1,5⟩] 0
    (by decide) (by decide)
  rw [h]; decide

/-- C7: when the ground fit succeeds but no post-ground-removal point reaches
the 0.15 threshold, the calculator returns the zero result and raises no
error. -/
theorem C7_empty_analysis_zero (pts : List Pt4) (g : ℚ)
    (hg : ground_level (pts.map (fun p => ⟨p.x, p.y, p.z⟩)) = .ok g)
    (he : (analysis_points g pts).length = 0) :
    calc_plant_height pts = .ok 0 := by
  unfold calc_plant_height
  rw [hg]
  show (if (analysis_points g pts).length = 0 then pure 0
        else pure (percentile (199 / 2) ((above_plane g pts).map Pt4.z)) : Except PcdErr ℚ) = _
  rw [if_pos he]
  rfl

unseal Rat.add Rat.mul Rat.inv Rat.sub in
/-- C7 witness: a perfectly flat cloud fits the ground at level 0, leaves the
analysis set empty, and yields the zero result without an error. -/
theorem C7_empty_analysis_zero_witness :
    calc_plant_height [⟨0,0,0,1⟩, ⟨1,0,0,2⟩, ⟨0,1,0,3⟩, ⟨2,2,0,4⟩] = .ok 0 := by
  exact C7_empty_analysis_zero [⟨0,0,0,1⟩, ⟨1,0,0,2⟩, ⟨0,1,0,3⟩, ⟨2,2,0,4⟩] 0
    (by decide) (by decide)

/-- C2 counterexample: a cloud with one `U1` field (stride 1) declaring 2
points whose body is one byte short (1 byte instead of 2) decodes WITHOUT a
truncation error, silently yielding a single record. -/
theorem C2_one_byte_short_counterexample :
    decode_pcd (fun _ => "")
      ["FIELDS a", "SIZE 1", "TYPE U", "COUNT 1", "WIDTH 2", "HEIGHT 1",
       "POINTS 2", "DATA binary"] [7]
    = .ok ⟨{ fields := ["a"], size := [1], type := ["U"], count := [1], points := 2,
             width := 2, height := 1, version := "0.7",
             viewpoint := defaultViewpoint, data := .binary },
           ["a"], [[[7]]]⟩ := by
  decide

/-- C2 (amended): the record stride equals the sum over header fields of
`size[i] * count[i]`; a binary body of exactly `points * stride` bytes
decodes into `points` records; and a body one byte shorter raises
`TruncatedDataError` PROVIDED the stride is at least 2 — with stride 1 the
short read is still a whole number of records and decodes silently. -/
theorem C2_stride_and_truncation (m : MetaData) (cols : List (String × ℕ))
    (body : List ℕ) (hc : build_dtype m = .ok cols) (hb : m.data = .binary)
    (hs : 0 < strideOf cols) :
    strideOf cols =
      ((List.range m.fields.length).map (fun j => m.size.getD j 0 * m.count.getD j 0)).sum ∧
    (body.length = m.points * strideOf cols →
      ∃ rows, parse_pc_data m cols body = .ok rows ∧ rows.length = m.points) ∧
    (2 ≤ strideOf cols → body.length + 1 = m.points * strideOf cols →
      parse_pc_data m cols body = .error .truncatedData) := by
  have haux := build_dtype_ok m cols hc
  refine ⟨?_, ?_, ?_⟩
  · have h := build_dtype_aux_stride m m.fields 0 cols haux
    simpa using h
  · intro hlen
    by_cases hp : m.points = 0
    · exact ⟨[], by simp [parse_pc_data, hp], by simp [hp]⟩
    · have hs0 : ¬ strideOf cols = 0 := by omega
      have htake : body.take (m.points * strideOf cols) = body := by
        rw [← hlen]; exact List.take_length body
      have hmod : body.length % strideOf cols = 0 := by
        rw [hlen]; exact Nat.mul_mod_left _ _
      have hdiv : body.length / strideOf cols = m.points := by
        rw [hlen]; exact Nat.mul_div_cancel _ hs
      refine ⟨chunkRecords cols (strideOf cols) m.points body, ?_, ?_⟩
      · simp only [parse_pc_data, hp, hb, htake, hmod, hdiv, hs0, if_false, if_true,
          ite_false, ite_true]
      · rw [chunkRecords_length]
  · intro hs2 hlen
    have hp : ¬ m.points = 0 := by
      intro h0
      rw [h0, Nat.zero_mul] at hlen
      omega
    have hsplit : m.points * strideOf cols
        = (m.points - 1) * strideOf cols + strideOf cols := by
      cases hmp : m.points with
      | zero => exact absurd hmp hp
      | succ q => simp [Nat.succ_mul]
    have hbody : body.length = (m.points - 1) * strideOf cols + (strideOf cols - 1) := by
      omega
    have htake : body.take (m.points * strideOf cols) = body := by
      apply List.take_of_length_le
      omega
    have hmodne : ¬ body.length % strideOf cols = 0 := by
      rw [hbody, Nat.mul_comm, Nat.mul_add_mod,
        Nat.mod_eq_of_lt (by omega : strideOf cols - 1 < strideOf cols)]
      omega
    have hs0 : ¬ strideOf cols = 0 := by omega
    simp only [parse_pc_data, hp, hb, htake, hmodne, hs0, if_false, ite_false]

/-- C2 witness: a 4-column float32 cloud (stride 16) with 1 point — a 16-byte
body decodes into one record, a 15-byte body raises the truncation error. -/
theorem C2_stride_and_truncation_witness :
    (∃ rows, parse_pc_data
        { fields := ["x","y","z","intensity"], size := [4,4,4,4],
          type := ["F","F","F","F"], count := [1,1,1,1], points := 1, width := 1,
          height := 1, version := "0.7", viewpoint := defaultViewpoint,
          data := .binary }
        [("x",4),("y",4),("z",4),("intensity",4)] (List.replicate 16 0)
      = .ok rows ∧ rows.length = 1) ∧
    parse_pc_data
        { fields := ["x","y","z","intensity"], size := [4,4,4,4],
          type := ["F","F","F","F"], count := [1,1,1,1], points := 1, width := 1,
          height := 1, version := "0.7", viewpoint := defaultViewpoint,
          data := .binary }
        [("x",4),("y",4),("z",4),("intensity",4)] (List.replicate 15 0)
      = .error .truncatedData := by
  constructor
  · exact (C2_stride_and_truncation _ _ _ (by decide) (by decide) (by decide)).2.1
      (by decide)
  · exact (C2_stride_and_truncation _ _ _ (by decide) (by decide) (by decide)).2.2
      (by decide) (by decide)

end AgroLidar

namespace AgroLidar

/-- `Except` bind on an error short-circuits. -/
theorem bind_error_eq {α β : Type} (f : α → Except PcdErr β) (e : PcdErr) :
    (do let a ← (Except.error e : Except PcdErr α); f a)
      = (Except.error e : Except PcdErr β) := rfl

/-- `Except` bind on a success applies the continuation. -/
theorem bind_ok_eq {α β : Type} (f : α → Except PcdErr β) (a : α) :
    (do let x ← (Except.ok a : Except PcdErr α); f x) = f a := rfl

/-- Every failure of `build_dtype` is a layout error. -/
theorem build_dtype_err (m : MetaData) (e : PcdErr)
    (h : build_dtype m = .error e) : e = .layoutError := by
  unfold build_dtype at h
  cases haux : build_dtype_aux m m.fields 0 with
  | error e2 =>
    simp only [haux] at h
    replace h : (Except.error e2 : Except PcdErr (List (String × ℕ))) = Except.error e := h
    simp only [Except.error.injEq] at h
    subst h
    exact build_dtype_aux_err m m.fields 0 e2 haux
  | ok cols0 =>
    simp only [haux] at h
    replace h : (if (cols0.map Prod.fst).Nodup then Except.ok cols0
        else Except.error PcdErr.layoutError) = Except.error e := h
    by_cases hnd : (cols0.map Prod.fst).Nodup
    · rw [if_pos hnd] at h; exact absurd h (by simp)
    · rw [if_neg hnd] at h
      simp only [Except.error.injEq] at h
      exact h.symm

/-- C5 counterexample: a collected header whose four per-field tuples have
mismatched lengths AND whose only (type, size) pair `(F, 2)` is unsupported is
nonetheless accepted by validation — no `HeaderError` is raised. -/
theorem C5_mismatch_counterexample :
    validate { fields := some ["x", "y"], size := some [2], type := some ["F", "F"],
               count := some [1, 1], points := some 3, width := some 3 }
      = .ok { fields := ["x", "y"], size := [2], type := ["F", "F"], count := [1, 1],
              points := 3, width := 3, height := 1, version := "0.7",
              viewpoint := defaultViewpoint, data := .binary } ∧
    (["x", "y"] : List String).length ≠ ([2] : List ℕ).length ∧
    ("F", (2 : ℕ)) ∉ PCD_TYPE_SIZES := by
  decide

/-- C5 (amended): header validation succeeds exactly when every required key
is present, all sizes and counts are positive, all type codes are in
`{F, U, I}`, points/width/height are non-negative, the viewpoint has arity 7
and the data token is a known encoding.  Mismatched lengths of the four
per-field tuples are NOT rejected at validation; they surface only later as a
layout (runtime) error when the dtype is built. -/
theorem C5_header_amended (r : RawHeader) :
    ((∃ m, validate r = .ok m) ↔ headerConditions r) ∧
    (∀ m, validate r = .ok m →
      m.type.length < m.fields.length ∨ m.size.length < m.fields.length ∨
        m.count.length < m.fields.length →
      build_dtype m = .error .layoutError) := by
  constructor
  · constructor
    · rintro ⟨m, h⟩
      unfold validate at h
      cases hf : r.fields with
      | none => simp [hf] at h
      | some fs =>
      simp only [hf] at h
      cases hsz : r.size with
      | none => simp [hsz] at h
      | some szs =>
      simp only [hsz] at h
      cases hty : r.type with
      | none => simp [hty] at h
      | some tys =>
      simp only [hty] at h
      cases hct : r.count with
      | none => simp [hct] at h
      | some cts =>
      simp only [hct] at h
      cases hpt : r.points with
      | none => simp [hpt] at h
      | some pts =>
      simp only [hpt] at h
      cases hwd : r.width with
      | none => simp [hwd] at h
      | some wd =>
      simp only [hwd] at h
      by_cases hcond : szs.all (fun v => 0 < v) ∧ cts.all (fun v => 0 < v) ∧
          tys.all (fun t => t = "F" ∨ t = "U" ∨ t = "I") ∧
          0 ≤ pts ∧ 0 ≤ wd ∧ 0 ≤ r.height.getD 1 ∧
          (r.viewpoint.getD defaultViewpoint).length = 7
      · obtain ⟨c1, c2, c3, c4, c5, c6, c7⟩ := hcond
        refine ⟨by simp [hf], by simp [hsz], by simp [hty], by simp [hct],
          by simp [hpt], by simp [hwd], ?_, ?_, ?_, ?_, ?_, c6, c7, ?_⟩
        · intro v hv
          rw [hsz] at hv
          simp only [Option.getD_some] at hv
          simpa using List.all_eq_true.mp c1 v hv
        · intro v hv
          rw [hct] at hv
          simp only [Option.getD_some] at hv
          simpa using List.all_eq_true.mp c2 v hv
        · intro t ht
          rw [hty] at ht
          simp only [Option.getD_some] at ht
          simpa using List.all_eq_true.mp c3 t ht
        · simpa [hpt] using c4
        · simpa [hwd] using c5
        · rw [if_pos ⟨c1, c2, c3, c4, c5, c6, c7⟩] at h
          cases hd : r.data with
          | none => left; rfl
          | some sd =>
            simp only [hd, encodeOf] at h
            unfold parse_encoding at h
            by_cases ha : sd = "ascii"
            · right; left; rw [ha]
            · by_cases hb2 : sd = "binary"
              · right; right; rw [hb2]
              · rw [if_neg ha, if_neg hb2] at h
                rw [bind_error_eq] at h
                exact absurd h (by simp)
      · rw [if_neg hcond] at h
        exact absurd h (by simp)
    · intro hc
      obtain ⟨h1, h2, h3, h4, h5, h6, h7, h8, h9, h10, h11, h12, h13, h14⟩ := hc
      obtain ⟨fs, hf⟩ := Option.isSome_iff_exists.mp h1
      obtain ⟨szs, hsz⟩ := Option.isSome_iff_exists.mp h2
      obtain ⟨tys, hty⟩ := Option.isSome_iff_exists.mp h3
      obtain ⟨cts, hct⟩ := Option.isSome_iff_exists.mp h4
      obtain ⟨pts, hpt⟩ := Option.isSome_iff_exists.mp h5
      obtain ⟨wd, hwd⟩ := Option.isSome_iff_exists.mp h6
      have hcond : szs.all (fun v => 0 < v) ∧ cts.all (fun v => 0 < v) ∧
          tys.all (fun t => t = "F" ∨ t = "U" ∨ t = "I") ∧
          0 ≤ pts ∧ 0 ≤ wd ∧ 0 ≤ r.height.getD 1 ∧
          (r.viewpoint.getD defaultViewpoint).length = 7 := by
        refine ⟨?_, ?_, ?_, ?_, ?_, h12, h13⟩
        · exact List.all_eq_true.mpr (fun v hv => by
            simpa using h7 v (by simp [hsz, hv]))
        · exact List.all_eq_true.mpr (fun v hv => by
            simpa using h8 v (by simp [hct, hv]))
        · exact List.all_eq_true.mpr (fun t ht => by
            simpa using h9 t (by simp [hty, ht]))
        · simpa [hpt] using h10
        · simpa [hwd] using h11
      unfold validate
      rw [hf, hsz, hty, hct, hpt, hwd]
      simp only [if_pos hcond]
      rcases h14 with hd | hd | hd
      · rw [hd]
        exact ⟨_, rfl⟩
      · rw [hd]
        exact ⟨_, rfl⟩
      · rw [hd]
        exact ⟨_, rfl⟩
  · intro m hm hlt
    cases hb : build_dtype m with
    | error e =>
      rw [build_dtype_err m e hb]
    | ok cols =>
      exfalso
      have haux := build_dtype_ok m cols hb
      have hbound := build_dtype_aux_bounds m m.fields 0 cols haux
      rcases hlt with hlt | hlt | hlt
      · have := (hbound m.type.length hlt).1
        omega
      · have := (hbound m.size.length hlt).2.1
        omega
      · have := (hbound m.count.length hlt).2.2
        omega

/-- C5 witness: the minimal well-formed header is accepted, and building the
layout for the accepted mismatched-length header of the counterexample fails
with the layout runtime error, not a `HeaderError`. -/
theorem C5_header_amended_witness :
    (∃ m, validate { fields := some ["x"], size := some [4], type := some ["F"],
                     count := some [1], points := some 0, width := some 0 } = .ok m) ∧
    build_dtype { fields := ["x", "y"], size := [2], type := ["F", "F"],
                  count := [1, 1], points := 3, width := 3, height := 1,
                  version := "0.7", viewpoint := defaultViewpoint,
                  data := .binary } = .error .layoutError := by
  constructor
  · exact (C5_header_amended _).1.mpr (by unfold headerConditions; decide)
  · exact (C5_header_amended { fields := some ["x", "y"], size := some [2],
                               type := some ["F", "F"], count := some [1, 1],
                               points := some 3,
                               width := some 3 }).2 _ (by decide) (by decide)

end AgroLidar

namespace AgroLidar

/-- `getColumn` can only fail with the field-not-found error. -/
theorem getColumn_err (pc : PointCloud) (f : String) (e : PcdErr)
    (h : getColumn pc f = .error e) : e = .fieldNotFound := by
  unfold getColumn at h
  cases hfind : pc.names.findIdx? (fun n => n = f) with
  | none => simp only [hfind] at h; cases h; rfl
  | some j => simp [hfind] at h

/-- A name that resolves to a column is a dtype column name. -/
theorem getColumn_ok_mem (pc : PointCloud) (f : String) (c : List (List ℕ))
    (h : getColumn pc f = .ok c) : f ∈ pc.names := by
  unfold getColumn at h
  cases hfind : pc.names.findIdx? (fun n => n = f) with
  | none => simp [hfind] at h
  | some j =>
    obtain ⟨hlt, hp, _⟩ := List.findIdx?_eq_some_iff_getElem.mp hfind
    have : pc.names[j] = f := by simpa using hp
    exact this ▸ List.getElem_mem hlt

/-- A missing name makes `getColumn` fail. -/
theorem getColumn_err_of_not_mem (pc : PointCloud) (f : String)
    (h : f ∉ pc.names) : getColumn pc f = .error .fieldNotFound := by
  unfold getColumn
  have hnone : pc.names.findIdx? (fun n => n = f) = none := by
    rw [List.findIdx?_eq_none_iff]
    intro x hx
    rw [decide_eq_false_iff_not]
    intro hxf
    exact h (hxf ▸ hx)
  rw [hnone]

/-- A present name makes `getColumn` succeed. -/
theorem getColumn_ok_of_mem (pc : PointCloud) (f : String)
    (h : f ∈ pc.names) : ∃ c, getColumn pc f = .ok c := by
  unfold getColumn
  cases hfind : pc.names.findIdx? (fun n => n = f) with
  | none =>
    rw [List.findIdx?_eq_none_iff] at hfind
    have := hfind f h
    simp at this
  | some j => exact ⟨_, rfl⟩

/-- The value of a successful column lookup, via `firstIdx`. -/
theorem getColumn_ok_eq (pc : PointCloud) (f : String) (c : List (List ℕ))
    (h : getColumn pc f = .ok c) :
    c = pc.pc_data.map (fun r => r.getD (firstIdx f pc.names) []) := by
  unfold getColumn at h
  cases hfind : pc.names.findIdx? (fun n => n = f) with
  | none => simp [hfind] at h
  | some j =>
    simp only [hfind] at h
    cases h
    unfold firstIdx
    rw [(List.findIdx?_eq_some_iff_findIdx_eq.mp hfind).2]

/-- If any requested name is missing, the column stack fails with the
field-not-found error. -/
theorem mapM_getColumn_err (pc : PointCloud) (req : List String)
    (h : ∃ f ∈ req, f ∉ pc.names) :
    req.mapM (getColumn pc) = .error .fieldNotFound := by
  induction req with
  | nil => obtain ⟨f, hf, _⟩ := h; simp at hf
  | cons a l ih =>
    rw [List.mapM_cons]
    cases hga : getColumn pc a with
    | error e =>
      rw [getColumn_err pc a e hga]
      rfl
    | ok c =>
      obtain ⟨f, hf, hnm⟩ := h
      rcases List.mem_cons.mp hf with rfl | hfl
      · exact absurd (getColumn_ok_mem pc f c hga) hnm
      · rw [ih ⟨f, hfl, hnm⟩]
        rfl

/-- If every requested name is present, the column stack succeeds. -/
theorem mapM_getColumn_isOk (pc : PointCloud) (req : List String)
    (h : ∀ f ∈ req, f ∈ pc.names) :
    ∃ cols, req.mapM (getColumn pc) = .ok cols := by
  induction req with
  | nil => exact ⟨[], by rw [List.mapM_nil]; rfl⟩
  | cons a l ih =>
    obtain ⟨c, hc⟩ := getColumn_ok_of_mem pc a (h a (by simp))
    obtain ⟨cs, hcs⟩ := ih (fun f hf => h f (by simp [hf]))
    refine ⟨c :: cs, ?_⟩
    rw [List.mapM_cons, hc, hcs]
    rfl

/-- The columns produced by a successful stack, in requested order. -/
theorem mapM_getColumn_ok_eq (pc : PointCloud) (req : List String)
    (cols : List (List (List ℕ))) (h : req.mapM (getColumn pc) = .ok cols) :
    cols = req.map (fun f => pc.pc_data.map (fun r => r.getD (firstIdx f pc.names) [])) := by
  induction req generalizing cols with
  | nil =>
    rw [List.mapM_nil] at h
    replace h : (Except.ok [] : Except PcdErr (List (List (List ℕ)))) = Except.ok cols := h
    cases h
    rfl
  | cons a l ih =>
    rw [List.mapM_cons] at h
    cases hga : getColumn pc a with
    | error e =>
      rw [hga] at h
      replace h : (Except.error e : Except PcdErr (List (List (List ℕ)))) = Except.ok cols := h
      exact absurd h (by simp)
    | ok c =>
      rw [hga] at h
      cases hrec : l.mapM (getColumn pc) with
      | error e =>
        rw [hrec] at h
        replace h : (Except.error e : Except PcdErr (List (List (List ℕ)))) = Except.ok cols := h
        exact absurd h (by simp)
      | ok cs =>
        rw [hrec] at h
        replace h : (Except.ok (c :: cs) : Except PcdErr (List (List (List ℕ)))) = Except.ok cols := h
        cases h
        rw [List.map_cons, ← ih cs hrec, ← getColumn_ok_eq pc a c hga]

/-- `getD` after `map`, inside the length bound. -/
theorem getD_map_lt {α β : Type} (g : α → β) (l : List α) (r : ℕ)
    (hr : r < l.length) (d : β) (d2 : α) :
    (l.map g).getD r d = g (l.getD r d2) := by
  rw [List.getD_eq_getElem?_getD, List.getD_eq_getElem?_getD, List.getElem?_map,
    List.getElem?_eq_getElem hr]
  simp

end AgroLidar

namespace AgroLidar

/-- C6 counterexample: a decoded empty cloud (`POINTS 0`) accepts a request
for a column name it does not have, returning the empty matrix instead of a
`FieldNotFoundError`. -/
theorem C6_empty_cloud_counterexample :
    decode_pcd (fun _ => "")
      ["FIELDS x", "SIZE 4", "TYPE F", "COUNT 1", "WIDTH 0", "HEIGHT 1",
       "POINTS 0", "DATA binary"] []
      = .ok ⟨{ fields := ["x"], size := [4], type := ["F"], count := [1],
               points := 0, width := 0, height := 1, version := "0.7",
               viewpoint := defaultViewpoint, data := .binary }, ["x"], []⟩ ∧
    PointCloud.numpy
      ⟨{ fields := ["x"], size := [4], type := ["F"], count := [1],
         points := 0, width := 0, height := 1, version := "0.7",
         viewpoint := defaultViewpoint, data := .binary }, ["x"], []⟩
      ["bogus"] = .ok [] ∧
    "bogus" ∉ (["x"] : List String) := by
  decide

/-- C6 (amended): on a cloud with at least one point and a nonempty request,
`numpy` fails with the field-not-found error when any requested name is
unknown, and otherwise returns one row per record whose cells are the
requested columns in requested order; a cloud with `points = 0` short-circuits
to an empty matrix before any name is checked. -/
theorem C6_numpy_selection (pc : PointCloud) (req : List String)
    (hp : pc.metadata.points ≠ 0) (hr : req ≠ []) :
    ((∃ f ∈ req, f ∉ pc.names) → pc.numpy req = .error .fieldNotFound) ∧
    ((∀ f ∈ req, f ∈ pc.names) →
      pc.numpy req = .ok ((List.range pc.pc_data.length).map (fun r =>
        req.map (fun f => (pc.pc_data.getD r []).getD (firstIdx f pc.names) [])))) := by
  have hl : ¬ req.length = 0 := by
    intro h0
    exact hr (List.length_eq_zero.mp h0)
  constructor
  · intro hmiss
    unfold PointCloud.numpy
    rw [if_neg hl, if_neg hp, mapM_getColumn_err pc req hmiss]
    rfl
  · intro hall
    obtain ⟨cols, hcols⟩ := mapM_getColumn_isOk pc req hall
    unfold PointCloud.numpy
    rw [if_neg hl, if_neg hp, hcols, bind_ok_eq]
    congr 1
    apply List.map_congr_left
    intro r hrmem
    have hrlt : r < pc.pc_data.length := List.mem_range.mp hrmem
    rw [mapM_getColumn_ok_eq pc req cols hcols, List.map_map]
    apply List.map_congr_left
    intro f _
    exact getD_map_lt _ _ _ hrlt _ []

/-- C6 witness: on a one-point cloud with columns `x, y, z`, requesting a
bogus name fails, while requesting `z` then `x` returns the two columns in
that order. -/
theorem C6_numpy_selection_witness :
    PointCloud.numpy
      ⟨{ fields := ["x", "y", "z"], size := [4, 4, 4], type := ["F", "F", "F"],
         count := [1, 1, 1], points := 1, width := 1, height := 1,
         version := "0.7", viewpoint := defaultViewpoint, data := .binary },
       ["x", "y", "z"],
       [[[1, 2, 3, 4], [5, 6, 7, 8], [9, 10, 11, 12]]]⟩
      ["bogus"] = .error .fieldNotFound ∧
    PointCloud.numpy
      ⟨{ fields := ["x", "y", "z"], size := [4, 4, 4], type := ["F", "F", "F"],
         count := [1, 1, 1], points := 1, width := 1, height := 1,
         version := "0.7", viewpoint := defaultViewpoint, data := .binary },
       ["x", "y", "z"],
       [[[1, 2, 3, 4], [5, 6, 7, 8], [9, 10, 11, 12]]]⟩
      ["z", "x"] = .ok [[[9, 10, 11, 12], [1, 2, 3, 4]]] := by
  constructor
  · exact (C6_numpy_selection
      ⟨{ fields := ["x", "y", "z"], size := [4, 4, 4], type := ["F", "F", "F"],
         count := [1, 1, 1], points := 1, width := 1, height := 1,
         version := "0.7", viewpoint := defaultViewpoint, data := .binary },
       ["x", "y", "z"],
       [[[1, 2, 3, 4], [5, 6, 7, 8], [9, 10, 11, 12]]]⟩
      ["bogus"] (by decide) (by decide)).1 ⟨"bogus", by decide, by decide⟩
  · have h := (C6_numpy_selection
      ⟨{ fields := ["x", "y", "z"], size := [4, 4, 4], type := ["F", "F", "F"],
         count := [1, 1, 1], points := 1, width := 1, height := 1,
         version := "0.7", viewpoint := defaultViewpoint, data := .binary },
       ["x", "y", "z"],
       [[[1, 2, 3, 4], [5, 6, 7, 8], [9, 10, 11, 12]]]⟩
      ["z", "x"] (by decide) (by decide)).2 (by decide)
    rw [h]
    decide

end AgroLidar

namespace AgroLidar

/-- The header-collection loop keeps at most `max 1 (10 - n)` further lines
when `n` lines have been collected already. -/
theorem collectAux_length (lines : List String) :
    ∀ n : ℕ, (collectAux lines n).length ≤ max 1 (10 - n) := by
  induction lines with
  | nil => intro n; simp [collectAux]
  | cons l rest ih =>
    intro n
    unfold collectAux
    by_cases h1 : strStarts (strTrim l) "#" ∨ (strTrim l).data = []
    · rw [if_pos h1]
      exact ih n
    · rw [if_neg h1]
      by_cases h2 : strStarts (strTrim l) "DATA" ∨ 9 ≤ n
      · rw [if_pos h2]
        simp
      · rw [if_neg h2]
        have hn : ¬ 9 ≤ n := fun h => h2 (Or.inr h)
        have := ih (n + 1)
        simp only [List.length_cons]
        omega

/-- C9: the header loop collects at most 10 non-comment, non-empty lines and
stops there even without a `DATA` line; on a file whose 11th such line is
`DATA ascii`, that line is never collected and the decoded metadata falls
back to the default binary encoding. -/
theorem C9_header_line_cap :
    (∀ lines : List String, (collectHeaderLines lines).length ≤ 10) ∧
    collectHeaderLines
      ["# comment", "VERSION 0.7", "FIELDS x", "SIZE 4", "TYPE F", "COUNT 1",
       "WIDTH 1", "HEIGHT 1", "VIEWPOINT 0 0 0 1 0 0 0", "POINTS 0", "FOO bar",
       "DATA ascii"]
      = ["VERSION 0.7", "FIELDS x", "SIZE 4", "TYPE F", "COUNT 1", "WIDTH 1",
         "HEIGHT 1", "VIEWPOINT 0 0 0 1 0 0 0", "POINTS 0", "FOO bar"] ∧
    "DATA ascii" ∉ collectHeaderLines
      ["# comment", "VERSION 0.7", "FIELDS x", "SIZE 4", "TYPE F", "COUNT 1",
       "WIDTH 1", "HEIGHT 1", "VIEWPOINT 0 0 0 1 0 0 0", "POINTS 0", "FOO bar",
       "DATA ascii"] ∧
    decode_pcd (fun _ => "")
      ["# comment", "VERSION 0.7", "FIELDS x", "SIZE 4", "TYPE F", "COUNT 1",
       "WIDTH 1", "HEIGHT 1", "VIEWPOINT 0 0 0 1 0 0 0", "POINTS 0", "FOO bar",
       "DATA ascii"] []
      = .ok ⟨{ fields := ["x"], size := [4], type := ["F"], count := [1],
               points := 0, width := 1, height := 1, version := "0.7",
               viewpoint := ["0", "0", "0", "1", "0", "0", "0"],
               data := .binary }, ["x"], []⟩ := by
  refine ⟨?_, by decide, by decide, by decide⟩
  intro lines
  have := collectAux_length lines 0
  unfold collectHeaderLines
  omega

/-- C10: `pcd_to_csv` never raises `FieldNotFoundError`: it always writes the
four-name header row `x, y, z, intensity` and silently keeps only those of
the four that exist among the expanded columns, so every data row has exactly
as many cells as there are present selected columns (possibly fewer than 4).
The hypothesis ties the dtype column names to the `fields` property, which
holds for every decoded cloud. -/
theorem C10_csv_schema (pc : PointCloud)
    (hn : pc.names = expand_fields pc.metadata) :
    ∃ out, pcd_to_csv pc = .ok out ∧
      out.headerRow = ["x", "y", "z", "intensity"] ∧
      ∀ row ∈ out.rows,
        row.length = ((["x", "y", "z", "intensity"] : List String).filter
          (fun f => (expand_fields pc.metadata).contains f)).length := by
  have hok : ∃ mat, pc.numpy (expand_fields pc.metadata) = .ok mat := by
    unfold PointCloud.numpy
    by_cases h0 : (expand_fields pc.metadata).length = 0
    · exact ⟨[], by rw [if_pos h0]⟩
    · by_cases hp : pc.metadata.points = 0
      · exact ⟨[], by rw [if_neg h0, if_pos hp]⟩
      · obtain ⟨cols, hcols⟩ := mapM_getColumn_isOk pc _ (fun f hf => hn ▸ hf)
        exact ⟨_, by rw [if_neg h0, if_neg hp, hcols, bind_ok_eq]⟩
  obtain ⟨mat, hmat⟩ := hok
  refine ⟨⟨selected_fields, mat.map (fun row =>
      ((selected_fields.filter (fun f => (expand_fields pc.metadata).contains f)).map
        (fun f => firstIdx f (expand_fields pc.metadata))).map
      (fun j => row.getD j []))⟩, ?_, rfl, ?_⟩
  · simp only [pcd_to_csv, hmat, bind_ok_eq]
  · intro row hrow
    simp only [List.mem_map] at hrow
    obtain ⟨row0, _, hrow0⟩ := hrow
    rw [← hrow0]
    simp [selected_fields]

end AgroLidar

namespace AgroLidar

/-- C10 witness: a decoded cloud with columns `x, y, z` and no `intensity`
converts without error into a CSV whose header row names four columns while
each data row has only three cells. -/
theorem C10_csv_schema_witness :
    ∃ out, pcd_to_csv
      ⟨{ fields := ["x", "y", "z"], size := [4, 4, 4], type := ["F", "F", "F"],
         count := [1, 1, 1], points := 1, width := 1, height := 1,
         version := "0.7", viewpoint := defaultViewpoint, data := .binary },
       ["x", "y", "z"],
       [[[1, 2, 3, 4], [5, 6, 7, 8], [9, 10, 11, 12]]]⟩ = .ok out ∧
      out.headerRow = ["x", "y", "z", "intensity"] ∧
      ∀ row ∈ out.rows, row.length = 3 := by
  obtain ⟨out, h1, h2, h3⟩ := C10_csv_schema
    ⟨{ fields := ["x", "y", "z"], size := [4, 4, 4], type := ["F", "F", "F"],
       count := [1, 1, 1], points := 1, width := 1, height := 1,
       version := "0.7", viewpoint := defaultViewpoint, data := .binary },
     ["x", "y", "z"],
     [[[1, 2, 3, 4], [5, 6, 7, 8], [9, 10, 11, 12]]]⟩ (by decide)
  refine ⟨out, h1, h2, ?_⟩
  intro row hrow
  rw [h3 row hrow]
  decide

end AgroLidar

namespace AgroLidar

/-- The name of an anonymized field is anonymous: prefixing with `anonPre`
makes the first character `'#'`. -/
theorem anonymousName_anonPre (s : String) : anonymousName (anonPre ++ s) :=
  ⟨"$%&~~".data ++ s.data, by rw [String.data_append]; rfl⟩

/-- Appending a suffix preserves anonymity. -/
theorem anonymousName_append (a s : String) (h : anonymousName a) :
    anonymousName (a ++ s) := by
  obtain ⟨l, hl⟩ := h
  exact ⟨l ++ s.data, by rw [String.data_append, hl]; rfl⟩

/-- A string whose first character is not `'#'` is not anonymous. -/
theorem not_anonymousName (f : String) (h : f.data.head? ≠ some '#') :
    ¬ anonymousName f := by
  rintro ⟨l, hl⟩
  exact h (by rw [hl]; rfl)

/-- `NRel` is reflexive. -/
theorem nrel_refl (a : String) : NRel a a := Or.inl rfl

/-- `NRel` is preserved by a common suffix. -/
theorem nrel_append (a b s : String) (h : NRel a b) : NRel (a ++ s) (b ++ s) := by
  rcases h with rfl | ⟨ha, hb⟩
  · exact Or.inl rfl
  · exact Or.inr ⟨anonymousName_append a s ha, anonymousName_append b s hb⟩

/-- Related names agree on equality with any non-anonymous name. -/
theorem nrel_eq_iff (a b f : String) (h : NRel a b) (hf : ¬ anonymousName f) :
    (a = f) = (b = f) := by
  rcases h with rfl | ⟨ha, hb⟩
  · rfl
  · simp only [eq_iff_iff]
    constructor
    · intro hx; exact absurd (hx ▸ ha) hf
    · intro hx; exact absurd (hx ▸ hb) hf

/-- Related name lists agree on `contains` for a non-anonymous name. -/
theorem forall2_nrel_contains (f : String) (hf : ¬ anonymousName f) :
    ∀ {l1 l2 : List String}, List.Forall₂ NRel l1 l2 →
      l1.contains f = l2.contains f := by
  intro l1 l2 h
  induction h with
  | nil => rfl
  | cons hab _ ih =>
    rename_i a b t1 t2 _
    simp only [List.contains_cons, ih]
    have : (f == a) = (f == b) := by
      have h1 := nrel_eq_iff a b f hab hf
      by_cases hfa : a = f
      · rw [beq_iff_eq.mpr hfa.symm, Eq.symm (beq_iff_eq.mpr ((h1 ▸ hfa).symm))]
      · have hfb : ¬ b = f := fun hb => hfa (by rw [h1]; exact hb)
        rw [Bool.eq_iff_iff]
        simp only [beq_iff_eq]
        constructor
        · intro hx; exact absurd hx.symm hfa
        · intro hx; exact absurd hx.symm hfb
    rw [this]

/-- Related name lists agree on `findIdx` for a non-anonymous name. -/
theorem forall2_nrel_findIdx (f : String) (hf : ¬ anonymousName f) :
    ∀ {l1 l2 : List String}, List.Forall₂ NRel l1 l2 →
      l1.findIdx (fun n => n = f) = l2.findIdx (fun n => n = f) := by
  intro l1 l2 h
  induction h with
  | nil => rfl
  | cons hab _ ih =>
    rename_i a b t1 t2 _
    rw [List.findIdx_cons, List.findIdx_cons, ih]
    rw [show (decide (a = f)) = (decide (b = f)) from
      decide_eq_decide.mpr (iff_of_eq (nrel_eq_iff a b f hab hf))]

end AgroLidar

namespace AgroLidar

/-- Two anonymization runs produce pointwise related field names. -/
theorem anonymize_rel (a1 a2 : ℕ → String) (ts : List String) :
    ∀ i, List.Forall₂ NRel (anonymize a1 i ts) (anonymize a2 i ts) := by
  induction ts with
  | nil => intro i; exact List.Forall₂.nil
  | cons t rest ih =>
    intro i
    unfold anonymize
    by_cases ht : t = "_"
    · rw [if_pos ht, if_pos ht]
      exact List.Forall₂.cons
        (Or.inr ⟨anonymousName_anonPre _, anonymousName_anonPre _⟩) (ih (i + 1))
    · rw [if_neg ht, if_neg ht]
      exact List.Forall₂.cons (nrel_refl t) (ih (i + 1))

/-- The key dispatch preserves the anonymization relation between two runs. -/
theorem applyKey_rel (a1 a2 : ℕ → String) (r1 r2 : RawHeader) (k : String)
    (vals : List String) (h : RawRel r1 r2) :
    excRel RawRel (applyKey a1 r1 k vals) (applyKey a2 r2 k vals) := by
  obtain ⟨hf, hsz, hty, hct, hpt, hwd, hht, hvs, hvp, hdt⟩ := h
  unfold applyKey
  by_cases h1 : k = "version"
  · rw [if_pos h1, if_pos h1]
    exact ⟨hf, hsz, hty, hct, hpt, hwd, hht, rfl, hvp, hdt⟩
  rw [if_neg h1, if_neg h1]
  by_cases h2 : k = "data"
  · rw [if_pos h2, if_pos h2]
    exact ⟨hf, hsz, hty, hct, hpt, hwd, hht, hvs, hvp, rfl⟩
  rw [if_neg h2, if_neg h2]
  by_cases h3 : k = "width"
  · rw [if_pos h3, if_pos h3]
    cases parseIntTok (vals.getD 0 "") with
    | error e => exact rfl
    | ok n => exact ⟨hf, hsz, hty, hct, hpt, rfl, hht, hvs, hvp, hdt⟩
  rw [if_neg h3, if_neg h3]
  by_cases h4 : k = "height"
  · rw [if_pos h4, if_pos h4]
    cases parseIntTok (vals.getD 0 "") with
    | error e => exact rfl
    | ok n => exact ⟨hf, hsz, hty, hct, hpt, hwd, rfl, hvs, hvp, hdt⟩
  rw [if_neg h4, if_neg h4]
  by_cases h5 : k = "points"
  · rw [if_pos h5, if_pos h5]
    cases parseIntTok (vals.getD 0 "") with
    | error e => exact rfl
    | ok n => exact ⟨hf, hsz, hty, hct, rfl, hwd, hht, hvs, hvp, hdt⟩
  rw [if_neg h5, if_neg h5]
  by_cases h6 : k = "fields"
  · rw [if_pos h6, if_pos h6]
    exact ⟨anonymize_rel a1 a2 vals 0, hsz, hty, hct, hpt, hwd, hht, hvs, hvp, hdt⟩
  rw [if_neg h6, if_neg h6]
  by_cases h7 : k = "type"
  · rw [if_pos h7, if_pos h7]
    exact ⟨hf, hsz, rfl, hct, hpt, hwd, hht, hvs, hvp, hdt⟩
  rw [if_neg h7, if_neg h7]
  by_cases h8 : k = "size"
  · rw [if_pos h8, if_pos h8]
    cases vals.mapM parseIntTok with
    | error e => exact rfl
    | ok ns => exact ⟨hf, rfl, hty, hct, hpt, hwd, hht, hvs, hvp, hdt⟩
  rw [if_neg h8, if_neg h8]
  by_cases h9 : k = "count"
  · rw [if_pos h9, if_pos h9]
    cases vals.mapM parseIntTok with
    | error e => exact rfl
    | ok ns => exact ⟨hf, hsz, hty, rfl, hpt, hwd, hht, hvs, hvp, hdt⟩
  rw [if_neg h9, if_neg h9]
  by_cases h10 : k = "viewpoint"
  · rw [if_pos h10, if_pos h10]
    exact ⟨hf, hsz, hty, hct, hpt, hwd, hht, hvs, rfl, hdt⟩
  rw [if_neg h10, if_neg h10]
  exact ⟨hf, hsz, hty, hct, hpt, hwd, hht, hvs, hvp, hdt⟩

/-- One parse-loop iteration preserves the anonymization relation. -/
theorem parse_line_rel (a1 a2 : ℕ → String) (r1 r2 : RawHeader) (l : String)
    (h : RawRel r1 r2) :
    excRel RawRel (parse_line a1 r1 l) (parse_line a2 r2 l) := by
  unfold parse_line
  by_cases h0 : strStarts l "#" ∨ l.length < 2
  · rw [if_pos h0, if_pos h0]
    exact h
  · rw [if_neg h0, if_neg h0]
    cases lineToks l with
    | nil => exact h
    | cons key vals =>
      cases vals with
      | nil => exact h
      | cons v vs => exact applyKey_rel a1 a2 r1 r2 (strLower key) (v :: vs) h

/-- The whole header-collection fold preserves the relation. -/
theorem foldlM_parse_rel (a1 a2 : ℕ → String) (lines : List String) :
    ∀ r1 r2, RawRel r1 r2 →
      excRel RawRel (lines.foldlM (parse_line a1) r1) (lines.foldlM (parse_line a2) r2) := by
  induction lines with
  | nil => intro r1 r2 h; exact h
  | cons l rest ih =>
    intro r1 r2 h
    rw [List.foldlM_cons, List.foldlM_cons]
    have hline := parse_line_rel a1 a2 r1 r2 l h
    cases hp1 : parse_line a1 r1 l with
    | error e =>
      cases hp2 : parse_line a2 r2 l with
      | error e2 =>
        rw [hp1, hp2] at hline
        exact hline
      | ok r2b =>
        rw [hp1, hp2] at hline
        exact hline.elim
    | ok r1b =>
      cases hp2 : parse_line a2 r2 l with
      | error e2 =>
        rw [hp1, hp2] at hline
        exact hline.elim
      | ok r2b =>
        rw [hp1, hp2] at hline
        exact ih r1b r2b hline

/-- Two parses of the same header lines with different suffix draws relate. -/
theorem parse_header_rel (a1 a2 : ℕ → String) (lines : List String) :
    excRel RawRel (parse_header a1 lines) (parse_header a2 lines) :=
  foldlM_parse_rel a1 a2 lines {} {}
    ⟨trivial, rfl, rfl, rfl, rfl, rfl, rfl, rfl, rfl, rfl⟩

end AgroLidar

namespace AgroLidar

/-- Validation relates two related collected headers: same failure, or
validated models that differ only in anonymized field names. -/
theorem validate_rel (r1 r2 : RawHeader) (h : RawRel r1 r2) :
    excRel MetaRel (validate r1) (validate r2) := by
  obtain ⟨hf, hsz, hty, hct, hpt, hwd, hht, hvs, hvp, hdt⟩ := h
  cases hf1 : r1.fields with
  | none =>
    have hf2 : r2.fields = none := by
      rw [hf1] at hf
      cases hx : r2.fields with
      | none => rfl
      | some fs2 => rw [hx] at hf; exact hf.elim
    simp only [validate, hf1, hf2]
    exact rfl
  | some fs1 =>
  cases hf2 : r2.fields with
  | none => rw [hf1, hf2] at hf; exact hf.elim
  | some fs2 =>
  rw [hf1, hf2] at hf
  cases hsz1 : r1.size with
  | none =>
    have hsz2 : r2.size = none := by rw [← hsz, hsz1]
    simp only [validate, hf1, hf2, hsz1, hsz2]
    exact rfl
  | some szs =>
  have hsz2 : r2.size = some szs := by rw [← hsz, hsz1]
  cases hty1 : r1.type with
  | none =>
    have hty2 : r2.type = none := by rw [← hty, hty1]
    simp only [validate, hf1, hf2, hsz1, hsz2, hty1, hty2]
    exact rfl
  | some tys =>
  have hty2 : r2.type = some tys := by rw [← hty, hty1]
  cases hct1 : r1.count with
  | none =>
    have hct2 : r2.count = none := by rw [← hct, hct1]
    simp only [validate, hf1, hf2, hsz1, hsz2, hty1, hty2, hct1, hct2]
    exact rfl
  | some cts =>
  have hct2 : r2.count = some cts := by rw [← hct, hct1]
  cases hpt1 : r1.points with
  | none =>
    have hpt2 : r2.points = none := by rw [← hpt, hpt1]
    simp only [validate, hf1, hf2, hsz1, hsz2, hty1, hty2, hct1, hct2, hpt1, hpt2]
    exact rfl
  | some pts =>
  have hpt2 : r2.points = some pts := by rw [← hpt, hpt1]
  cases hwd1 : r1.width with
  | none =>
    have hwd2 : r2.width = none := by rw [← hwd, hwd1]
    simp only [validate, hf1, hf2, hsz1, hsz2, hty1, hty2, hct1, hct2, hpt1, hpt2,
      hwd1, hwd2]
    exact rfl
  | some wd =>
  have hwd2 : r2.width = some wd := by rw [← hwd, hwd1]
  simp only [validate, hf1, hf2, hsz1, hsz2, hty1, hty2, hct1, hct2, hpt1, hpt2,
    hwd1, hwd2, ← hht, ← hvs, ← hvp, ← hdt]
  by_cases hcond : szs.all (fun v => 0 < v) ∧ cts.all (fun v => 0 < v) ∧
      tys.all (fun t => t = "F" ∨ t = "U" ∨ t = "I") ∧
      0 ≤ pts ∧ 0 ≤ wd ∧ 0 ≤ r1.height.getD 1 ∧
      (r1.viewpoint.getD defaultViewpoint).length = 7
  · rw [if_pos hcond, if_pos hcond]
    cases hd : r1.data with
    | none =>
      simp only [encodeOf, bind_ok_eq]
      exact ⟨hf, rfl, rfl, rfl, rfl, rfl, rfl, rfl, rfl, rfl⟩
    | some sd =>
      by_cases ha : sd = "ascii"
      · simp only [encodeOf, parse_encoding, if_pos ha, bind_ok_eq]
        exact ⟨hf, rfl, rfl, rfl, rfl, rfl, rfl, rfl, rfl, rfl⟩
      · by_cases hb : sd = "binary"
        · simp only [encodeOf, parse_encoding, if_neg ha, if_pos hb, bind_ok_eq]
          exact ⟨hf, rfl, rfl, rfl, rfl, rfl, rfl, rfl, rfl, rfl⟩
        · simp only [encodeOf, parse_encoding, if_neg ha, if_neg hb, bind_error_eq]
          exact rfl
  · rw [if_neg hcond, if_neg hcond]
    exact rfl

/-- `build_dtype_aux` only reads `type`, `size` and `count`, so two models
equal there build identical layouts for the same field list. -/
theorem build_dtype_aux_congr (m1 m2 : MetaData) (hty : m1.type = m2.type)
    (hsz : m1.size = m2.size) (hct : m1.count = m2.count) :
    ∀ (fs : List String) (i : ℕ),
      build_dtype_aux m1 fs i = build_dtype_aux m2 fs i := by
  intro fs
  induction fs with
  | nil => intro i; rfl
  | cons f rest ih =>
    intro i
    unfold build_dtype_aux
    rw [← hty, ← hsz, ← hct, ih (i + 1)]

/-- The layout expansions of two related field lists are related columns. -/
theorem build_aux_rel (m1 m2 : MetaData) (hm : MetaRel m1 m2) :
    ∀ {fs1 fs2 : List String}, List.Forall₂ NRel fs1 fs2 → ∀ i,
      excRel ColsRel (build_dtype_aux m1 fs1 i) (build_dtype_aux m2 fs2 i) := by
  obtain ⟨hf, hsz, hty, hct, hpt, hwd, hht, hvs, hvp, hdt⟩ := hm
  intro fs1 fs2 hfs
  induction hfs with
  | nil => intro i; exact List.Forall₂.nil
  | @cons a b t1 t2 hab hrest ih =>
    intro i
    rw [← build_dtype_aux_congr m1 m2 hty hsz hct (b :: t2) i]
    cases hty2 : m1.type[i]? with
    | none =>
      simp only [build_dtype_aux, hty2]
      exact rfl
    | some ty =>
    cases hsz2 : m1.size[i]? with
    | none =>
      simp only [build_dtype_aux, hty2, hsz2]
      exact rfl
    | some sz =>
    by_cases hmem : (ty, sz) ∈ PCD_TYPE_SIZES
    · cases hct2 : m1.count[i]? with
      | none =>
        simp only [build_dtype_aux, hty2, hsz2, hct2, if_pos hmem]
        exact rfl
      | some ct =>
        have hih := ih (i + 1)
        rw [← build_dtype_aux_congr m1 m2 hty hsz hct t2 (i + 1)] at hih
        cases h1 : build_dtype_aux m1 t1 (i + 1) with
        | error e =>
          cases h2 : build_dtype_aux m1 t2 (i + 1) with
          | error e2 =>
            rw [h1, h2] at hih
            simp only [build_dtype_aux, hty2, hsz2, hct2, if_pos hmem, h1, h2,
              bind_error_eq]
            exact hih
          | ok c2 =>
            rw [h1, h2] at hih
            exact hih.elim
        | ok c1 =>
          cases h2 : build_dtype_aux m1 t2 (i + 1) with
          | error e2 =>
            rw [h1, h2] at hih
            exact hih.elim
          | ok c2 =>
            rw [h1, h2] at hih
            simp only [build_dtype_aux, hty2, hsz2, hct2, if_pos hmem, h1, h2,
              bind_ok_eq]
            by_cases hc1 : ct = 1
            · simp only [if_pos hc1]
              exact List.Forall₂.cons ⟨hab, rfl⟩ hih
            · simp only [if_neg hc1]
              refine List.rel_append ?_ hih
              rw [List.forall₂_map_left_iff, List.forall₂_map_right_iff,
                List.forall₂_same]
              intro j _
              exact ⟨nrel_append _ _ (pad4 j) (nrel_append a b "__" hab), rfl⟩
    · simp only [build_dtype_aux, hty2, hsz2, if_neg hmem]
      exact rfl

/-- Two successful layout builds from related models give related columns. -/
theorem build_rel (m1 m2 : MetaData) (hm : MetaRel m1 m2)
    (cols1 cols2 : List (String × ℕ))
    (h1 : build_dtype m1 = .ok cols1) (h2 : build_dtype m2 = .ok cols2) :
    ColsRel cols1 cols2 := by
  have ha1 := build_dtype_ok m1 cols1 h1
  have ha2 := build_dtype_ok m2 cols2 h2
  have hrel := build_aux_rel m1 m2 hm hm.1 0
  rw [ha1, ha2] at hrel
  exact hrel

/-- Related columns have equal widths. -/
theorem colsrel_snd {c d : List (String × ℕ)} (h : ColsRel c d) :
    c.map Prod.snd = d.map Prod.snd := by
  induction h with
  | nil => rfl
  | cons hab _ ih => simp [ih, hab.2]

/-- Related columns have related names. -/
theorem colsrel_fst {c d : List (String × ℕ)} (h : ColsRel c d) :
    List.Forall₂ NRel (c.map Prod.fst) (d.map Prod.fst) := by
  induction h with
  | nil => exact List.Forall₂.nil
  | cons hab _ ih => exact List.Forall₂.cons hab.1 ih

/-- Related columns have equal stride. -/
theorem colsrel_stride {c d : List (String × ℕ)} (h : ColsRel c d) :
    strideOf c = strideOf d := by
  unfold strideOf
  rw [colsrel_snd h]

/-- Cell splitting only depends on the column widths. -/
theorem splitCells_congr {c d : List (String × ℕ)} (h : ColsRel c d) :
    ∀ bytes, splitCells bytes c = splitCells bytes d := by
  induction h with
  | nil => intro bytes; rfl
  | cons hab _ ih =>
    intro bytes
    rename_i x y t1 t2 _
    show bytes.take x.2 :: splitCells (bytes.drop x.2) t1
      = bytes.take y.2 :: splitCells (bytes.drop y.2) t2
    rw [hab.2, ih]

/-- Record chunking only depends on the column widths. -/
theorem chunkRecords_congr {c d : List (String × ℕ)} (h : ColsRel c d) (s : ℕ) :
    ∀ (n : ℕ) (bytes : List ℕ), chunkRecords c s n bytes = chunkRecords d s n bytes := by
  intro n
  induction n with
  | zero => intro bytes; rfl
  | succ k ih =>
    intro bytes
    show splitCells bytes c :: chunkRecords c s k (bytes.drop s)
      = splitCells bytes d :: chunkRecords d s k (bytes.drop s)
    rw [splitCells_congr h, ih]

/-- Body decoding is identical for two related runs: it only reads the point
count, the encoding and the column widths. -/
theorem parse_pc_data_congr (m1 m2 : MetaData) (hm : MetaRel m1 m2)
    (c d : List (String × ℕ)) (hc : ColsRel c d) (body : List ℕ) :
    parse_pc_data m1 c body = parse_pc_data m2 d body := by
  obtain ⟨hf, hsz, hty, hct, hpt, hwd, hht, hvs, hvp, hdt⟩ := hm
  unfold parse_pc_data
  rw [← hpt, ← hdt]
  simp only [colsrel_stride hc, hc.length_eq, chunkRecords_congr hc]

/-- Zipping related names with the same counts relates pairwise. -/
theorem forall2_zip_counts {l1 l2 : List String} (h : List.Forall₂ NRel l1 l2) :
    ∀ (cs : List ℕ),
      List.Forall₂ (fun (x y : String × ℕ) => NRel x.1 y.1 ∧ x.2 = y.2)
        (List.zip l1 cs) (List.zip l2 cs) := by
  induction h with
  | nil => intro cs; exact List.Forall₂.nil
  | cons hab _ ih =>
    intro cs
    cases cs with
    | nil => exact List.Forall₂.nil
    | cons cc cr => exact List.Forall₂.cons ⟨hab, rfl⟩ (ih cr)

/-- `flatMap` preserves `Forall₂` under a pointwise lifting. -/
theorem forall2_flatMap {α β γ δ : Type} {S : α → β → Prop} {R : γ → δ → Prop}
    {g : α → List γ} {g2 : β → List δ}
    (hg : ∀ x y, S x y → List.Forall₂ R (g x) (g2 y)) :
    ∀ {la : List α} {lb : List β}, List.Forall₂ S la lb →
      List.Forall₂ R (la.flatMap g) (lb.flatMap g2) := by
  intro la lb h
  induction h with
  | nil => exact List.Forall₂.nil
  | cons hab _ ih =>
    rw [List.flatMap_cons, List.flatMap_cons]
    exact List.rel_append (hg _ _ hab) ih

/-- The expanded `fields` properties of two related models are related. -/
theorem expand_fields_rel (m1 m2 : MetaData) (hm : MetaRel m1 m2) :
    List.Forall₂ NRel (expand_fields m1) (expand_fields m2) := by
  have hf := hm.1
  have hct := hm.2.2.2.1
  unfold expand_fields
  rw [← hct]
  refine forall2_flatMap ?_ (forall2_zip_counts hf m1.count)
  rintro ⟨xa, xc⟩ ⟨ya, yc⟩ ⟨hxy, hcc⟩
  simp only at hxy hcc
  subst hcc
  by_cases h1 : xc = 1
  · rw [if_pos h1, if_pos h1]
    exact List.Forall₂.cons hxy List.Forall₂.nil
  · rw [if_neg h1, if_neg h1]
    rw [List.forall₂_map_left_iff, List.forall₂_map_right_iff, List.forall₂_same]
    intro j _
    exact nrel_append _ _ (pad4 j) (nrel_append xa ya "__" hxy)

/-- Inversion of a successful `Except` bind. -/
theorem bind_ok_inv {α β : Type} {x : Except PcdErr α} {f : α → Except PcdErr β}
    {b : β} (h : (do let a ← x; f a) = .ok b) : ∃ a, x = .ok a ∧ f a = .ok b := by
  cases hx : x with
  | error e =>
    rw [hx] at h
    rw [bind_error_eq] at h
    exact absurd h (by simp)
  | ok a =>
    rw [hx] at h
    rw [bind_ok_eq] at h
    exact ⟨a, rfl, h⟩

end AgroLidar

namespace AgroLidar

/-- `fields.index(f)` of a present name is in range and points at `f`. -/
theorem firstIdx_spec (f : String) :
    ∀ l : List String, f ∈ l →
      firstIdx f l < l.length ∧ l.getD (firstIdx f l) "" = f := by
  intro l
  induction l with
  | nil => intro h; simp at h
  | cons a t ih =>
    intro h
    unfold firstIdx
    rw [List.findIdx_cons]
    by_cases ha : a = f
    · simp [ha]
    · have hf : f ∈ t := by
        rcases List.mem_cons.mp h with rfl | hm
        · exact absurd rfl ha
        · exact hm
      have hrec := ih hf
      unfold firstIdx at hrec
      rw [decide_eq_false ha]
      simp only [cond_false, List.length_cons, List.getD_cons_succ]
      exact ⟨by omega, hrec.2⟩

/-- None of the four selected column names is an anonymized name. -/
theorem selected_not_anon : ∀ f ∈ selected_fields, ¬ anonymousName f := by
  intro f hf
  simp only [selected_fields, List.mem_cons, List.not_mem_nil, or_false] at hf
  rcases hf with rfl | rfl | rfl | rfl
  · exact not_anonymousName "x" (by decide)
  · exact not_anonymousName "y" (by decide)
  · exact not_anonymousName "z" (by decide)
  · exact not_anonymousName "intensity" (by decide)

/-- Closed form of a successful CSV conversion: the constant header row, and
one row per record holding, for each present selected column, the cell at
that column's first index among the dtype names. -/
theorem pcd_to_csv_ok_eq (pc : PointCloud) (out : CsvOut)
    (h : pcd_to_csv pc = .ok out) :
    out = ⟨selected_fields,
      if (expand_fields pc.metadata).length = 0 ∨ pc.metadata.points = 0 then []
      else (List.range pc.pc_data.length).map (fun r =>
        ((selected_fields.filter
            (fun f => (expand_fields pc.metadata).contains f)).map
          (fun f => (pc.pc_data.getD r []).getD (firstIdx f pc.names) [])))⟩ := by
  unfold pcd_to_csv at h
  obtain ⟨mat, hmat, hrest⟩ := bind_ok_inv h
  replace hrest : (Except.ok (⟨selected_fields, mat.map (fun row =>
      ((selected_fields.filter
          (fun f => (expand_fields pc.metadata).contains f)).map
        (fun f => firstIdx f (expand_fields pc.metadata))).map
      (fun j => row.getD j []))⟩ : CsvOut) : Except PcdErr CsvOut) = Except.ok out := hrest
  have hout := hrest
  simp only [Except.ok.injEq] at hout
  subst hout
  unfold PointCloud.numpy at hmat
  by_cases h0 : (expand_fields pc.metadata).length = 0
  · rw [if_pos h0] at hmat
    replace hmat : (Except.ok ([] : List (List (List ℕ))) : Except PcdErr _) = Except.ok mat := hmat
    simp only [Except.ok.injEq] at hmat
    subst hmat
    rw [if_pos (Or.inl h0)]
    rfl
  · rw [if_neg h0] at hmat
    by_cases hp : pc.metadata.points = 0
    · rw [if_pos hp] at hmat
      replace hmat : (Except.ok ([] : List (List (List ℕ))) : Except PcdErr _) = Except.ok mat := hmat
      simp only [Except.ok.injEq] at hmat
      subst hmat
      rw [if_pos (Or.inr hp)]
      rfl
    · rw [if_neg hp] at hmat
      obtain ⟨cols, hcols, hpure⟩ := bind_ok_inv hmat
      replace hpure : (Except.ok ((List.range pc.pc_data.length).map
          (fun r => cols.map (fun c => c.getD r []))) : Except PcdErr _) = Except.ok mat := hpure
      simp only [Except.ok.injEq] at hpure
      subst hpure
      rw [if_neg (by push_neg; exact ⟨h0, hp⟩)]
      have hcols_eq := mapM_getColumn_ok_eq pc _ cols hcols
      congr 1
      rw [List.map_map]
      apply List.map_congr_left
      intro r hrmem
      have hrlt : r < pc.pc_data.length := List.mem_range.mp hrmem
      simp only [Function.comp]
      rw [List.map_map]
      apply List.map_congr_left
      intro f hfmem
      have hfreq : f ∈ expand_fields pc.metadata := by
        have hc2 := (List.mem_filter.mp hfmem).2
        obtain ⟨b, hb, hbe⟩ := List.contains_iff_exists_mem_beq.mp hc2
        exact (eq_of_beq hbe) ▸ hb
      have hspec := firstIdx_spec f (expand_fields pc.metadata) hfreq
      have hclen : cols.length = (expand_fields pc.metadata).length := by
        rw [hcols_eq, List.length_map]
      simp only [Function.comp]
      rw [getD_map_lt (fun c => c.getD r []) cols (firstIdx f (expand_fields pc.metadata))
        (by omega) [] []]
      rw [hcols_eq]
      rw [getD_map_lt _ (expand_fields pc.metadata) (firstIdx f (expand_fields pc.metadata))
        hspec.1 [] ""]
      rw [hspec.2]
      rw [getD_map_lt _ pc.pc_data r hrlt [] []]

/-- C8: converting the same container twice produces identical CSV output,
whatever suffixes the two runs draw for anonymous fields — anonymized names
all start with `'#'`, so they never collide with the selected column names
nor shift their positions. -/
theorem C8_convert_deterministic (lines : List String) (body : List ℕ)
    (a1 a2 : ℕ → String) (o1 o2 : CsvOut)
    (h1 : convert a1 lines body = .ok o1) (h2 : convert a2 lines body = .ok o2) :
    o1 = o2 := by
  unfold convert at h1 h2
  obtain ⟨pc1, hd1, hc1⟩ := bind_ok_inv h1
  obtain ⟨pc2, hd2, hc2⟩ := bind_ok_inv h2
  unfold decode_pcd at hd1 hd2
  obtain ⟨raw1, hr1, hd1b⟩ := bind_ok_inv hd1
  obtain ⟨m1, hv1, hd1c⟩ := bind_ok_inv hd1b
  obtain ⟨cols1, hb1, hd1d⟩ := bind_ok_inv hd1c
  obtain ⟨rows1, hpd1, hd1e⟩ := bind_ok_inv hd1d
  obtain ⟨raw2, hr2, hd2b⟩ := bind_ok_inv hd2
  obtain ⟨m2, hv2, hd2c⟩ := bind_ok_inv hd2b
  obtain ⟨cols2, hb2, hd2d⟩ := bind_ok_inv hd2c
  obtain ⟨rows2, hpd2, hd2e⟩ := bind_ok_inv hd2d
  have hraw := parse_header_rel a1 a2 (collectHeaderLines lines)
  rw [hr1, hr2] at hraw
  have hmeta := validate_rel raw1 raw2 hraw
  rw [hv1, hv2] at hmeta
  have hcolr := build_rel m1 m2 hmeta cols1 cols2 hb1 hb2
  have hrows : rows1 = rows2 := by
    have hcong := parse_pc_data_congr m1 m2 hmeta cols1 cols2 hcolr body
    rw [hpd1, hpd2] at hcong
    simpa using hcong
  obtain rfl : pc1 = ⟨m1, cols1.map Prod.fst, rows1⟩ := by
    replace hd1e : (Except.ok (⟨m1, cols1.map Prod.fst, rows1⟩ : PointCloud)
        : Except PcdErr PointCloud) = Except.ok pc1 := hd1e
    simp only [Except.ok.injEq] at hd1e
    exact hd1e.symm
  obtain rfl : pc2 = ⟨m2, cols2.map Prod.fst, rows2⟩ := by
    replace hd2e : (Except.ok (⟨m2, cols2.map Prod.fst, rows2⟩ : PointCloud)
        : Except PcdErr PointCloud) = Except.ok pc2 := hd2e
    simp only [Except.ok.injEq] at hd2e
    exact hd2e.symm
  rw [pcd_to_csv_ok_eq _ o1 hc1, pcd_to_csv_ok_eq _ o2 hc2]
  have hexp := expand_fields_rel m1 m2 hmeta
  have hexplen : (expand_fields m1).length = (expand_fields m2).length :=
    hexp.length_eq
  have hpts : m1.points = m2.points := hmeta.2.2.2.2.1
  have hnames := colsrel_fst hcolr
  have hfilter : (selected_fields.filter (fun f => (expand_fields m1).contains f))
      = (selected_fields.filter (fun f => (expand_fields m2).contains f)) :=
    List.filter_congr (fun f hf => forall2_nrel_contains f (selected_not_anon f hf) hexp)
  simp only [CsvOut.mk.injEq, true_and]
  rw [hexplen, hpts, hrows, hfilter]
  by_cases hcnd : (expand_fields m2).length = 0 ∨ m2.points = 0
  · rw [if_pos hcnd, if_pos hcnd]
  · rw [if_neg hcnd, if_neg hcnd]
    apply List.map_congr_left
    intro r _
    apply List.map_congr_left
    intro f hfmem
    have hfsel : f ∈ selected_fields := (List.mem_filter.mp hfmem).1
    rw [show firstIdx f (cols1.map Prod.fst) = firstIdx f (cols2.map Prod.fst) from
      forall2_nrel_findIdx f (selected_not_anon f hfsel) hnames]

end AgroLidar

namespace AgroLidar

/-- C8 witness: a container with an anonymous `_` field converted under two
different suffix draws yields the same CSV output. -/
theorem C8_convert_deterministic_witness :
    ∃ o, convert (fun _ => "aaaaaa")
        ["FIELDS x _ z intensity", "SIZE 4 1 4 4", "TYPE F U F F",
         "COUNT 1 1 1 1", "WIDTH 1", "HEIGHT 1", "POINTS 1", "DATA binary"]
        [1, 2, 3, 4, 9, 5, 6, 7, 8, 10, 11, 12, 13] = .ok o ∧
      convert (fun n => "bb" ++ toString n)
        ["FIELDS x _ z intensity", "SIZE 4 1 4 4", "TYPE F U F F",
         "COUNT 1 1 1 1", "WIDTH 1", "HEIGHT 1", "POINTS 1", "DATA binary"]
        [1, 2, 3, 4, 9, 5, 6, 7, 8, 10, 11, 12, 13] = .ok o := by
  have h1 : convert (fun _ => "aaaaaa")
      ["FIELDS x _ z intensity", "SIZE 4 1 4 4", "TYPE F U F F",
       "COUNT 1 1 1 1", "WIDTH 1", "HEIGHT 1", "POINTS 1", "DATA binary"]
      [1, 2, 3, 4, 9, 5, 6, 7, 8, 10, 11, 12, 13]
      = .ok ⟨["x", "y", "z", "intensity"],
             [[[1, 2, 3, 4], [5, 6, 7, 8], [10, 11, 12, 13]]]⟩ := by decide
  have h2 : convert (fun n => "bb" ++ toString n)
      ["FIELDS x _ z intensity", "SIZE 4 1 4 4", "TYPE F U F F",
       "COUNT 1 1 1 1", "WIDTH 1", "HEIGHT 1", "POINTS 1", "DATA binary"]
      [1, 2, 3, 4, 9, 5, 6, 7, 8, 10, 11, 12, 13]
      = .ok ⟨["x", "y", "z", "intensity"],
             [[[1, 2, 3, 4], [5, 6, 7, 8], [10, 11, 12, 13]]]⟩ := by decide
  refine ⟨_, h1, ?_⟩
  rw [C8_convert_deterministic _ _ _ _ _ _ h1 h2]
  exact h2

end AgroLidar
